import Mathlib

/-!
# Verification of `lenet.ipynb` (Dive into Deep Learning, LeNet chapter)

A shallow embedding of the code cells of
`src/chapter_convolutional-neural-networks/lenet.ipynb`:

* the declarative layer list `net` (cell 1),
* the shape-inspection loop (cell 3),
* `evaluate_accuracy_gpu` (cell 7),
* `train_ch5` (cell 9).

External framework behaviour (MXNet/Gluon forward, loss, backward, optimizer
step, parameter initialization) is abstracted as a `Framework` record of
fallible operations over an opaque parameter-state type `σ`; the d2l helper
library (`Accumulator`, `accuracy`, `Timer`) and Python runtime semantics
(`ZeroDivisionError` on float division by zero, `NameError` on an unassigned
name) are modelled from the spec's description of them, as noted on each
definition.  Real numbers (Python floats) are modelled as rationals `ℚ`.
-/

namespace LeNet

/-- A compute device (`mx.cpu()` / `mx.gpu(i)`); only its identity matters. -/
abbrev Device := Nat

/-- An MXNet ndarray: its payload together with the device it lives on.
`as_in_context` moves it between devices; the payload is unchanged. -/
structure NDArray (α : Type) where
  data : List α
  ctx : Device
  deriving DecidableEq, Repr

/-- `a.as_in_context(c)`: copy the array to device `c` (cell 7 / cell 9). -/
def NDArray.as_in_context {α : Type} (a : NDArray α) (c : Device) : NDArray α :=
  { a with ctx := c }

/-- `y.size` / `X.shape[0]`: the number of entries along the leading axis. -/
def NDArray.size {α : Type} (a : NDArray α) : Nat :=
  a.data.length

/-- First index of the maximum entry (numpy `argmax` over one row). -/
def argmaxAux : List ℚ → Nat → Nat → ℚ → Nat
  | [], _, best, _ => best
  | x :: xs, i, best, bv =>
      if bv < x then argmaxAux xs (i + 1) i x else argmaxAux xs (i + 1) best bv

/-- Modelled from the spec: the course support library supplies "an accuracy
metric"; `d2l.accuracy(y_hat, y)` is the number of rows of `y_hat` whose
argmax equals the corresponding label of `y`.  Rows are score rows. -/
def accuracy (y_hat : NDArray (List ℚ)) (y : NDArray Nat) : Nat :=
  ((y_hat.data.zip y.data).filter
    (fun p =>
      (match p.1 with
       | [] => 0
       | x :: xs => argmaxAux xs 1 0 x) = p.2)).length

/-- Modelled from the spec: Python float division, raising `ZeroDivisionError`
when the divisor is zero (the notebook relies on the Python runtime here). -/
def pydiv (a b : ℚ) : Except String ℚ :=
  if b = 0 then .error "ZeroDivisionError" else .ok (a / b)

/-- A Gluon parameter, exposing only `list_ctx()`, the devices it lives on
(`evaluate_accuracy_gpu` reads `[0]` of it). -/
structure Parameter where
  list_ctx : List Device
  deriving DecidableEq, Repr

/-- A Gluon network: `collect_params().values()` as a list, plus the opaque
framework-internal parameter state `st : σ` that the forward pass reads and
the optimizer updates. -/
structure Net (σ : Type) where
  params : List Parameter
  st : σ

/-- Modelled from the spec: the external framework's operations that the
notebook calls.  Each may fail with a framework-raised error (shape mismatch,
device unavailable, out of memory, ...), hence `Except String`.

* `initNet s c`  — `net.initialize(force_reinit=True, ctx=c, init=init.Xavier())`
* `forward s X`  — `net(X)`, producing one score row per example
* `lossFn yh y`  — `gluon.loss.SoftmaxCrossEntropyLoss()(yh, y)`, one loss per example
* `backward s l` — `l.backward()`
* `step s lr n`  — `trainer.step(n)` for an `sgd` trainer with learning rate `lr`
-/
structure Framework (σ : Type) where
  initNet : σ → Device → Except String σ
  forward : σ → NDArray (List ℚ) → Except String (NDArray (List ℚ))
  lossFn : NDArray (List ℚ) → NDArray Nat → Except String (NDArray ℚ)
  backward : σ → NDArray ℚ → Except String σ
  step : σ → ℚ → Nat → Except String σ

/-! ## The network declaration (cell 1) -/

/-- Activations appearing in the notebook's layer declarations. -/
inductive Activation where
  | sigmoid
  deriving DecidableEq, Repr

/-- A Gluon layer specification, as declared in cell 1:
`nn.Conv2D(channels, kernel_size, padding, activation)`,
`nn.AvgPool2D(pool_size, strides)`, `nn.Dense(units, activation)`. -/
inductive Layer where
  | conv2D (channels kernel_size padding : Nat) (activation : Option Activation)
  | avgPool2D (pool_size strides : Nat)
  | dense (units : Nat) (activation : Option Activation)
  deriving DecidableEq, Repr

/-- Cell 1: the network, an ordered list of layers added to `nn.Sequential()`.
`nn.Conv2D` defaults to padding 0 when none is given. -/
def net : List Layer :=
  [.conv2D 6 5 2 (some .sigmoid),
   .avgPool2D 2 2,
   .conv2D 16 5 0 (some .sigmoid),
   .avgPool2D 2 2,
   .dense 120 (some .sigmoid),
   .dense 84 (some .sigmoid),
   .dense 10 none]

/-! ## The shape-inspection loop (cell 3) -/

/-- A tensor shape as printed by the loop: 4-D `(n, c, h, w)` after
convolution/pooling layers, 2-D `(n, d)` after dense layers. -/
inductive Shape where
  | dim4 (n c h w : Nat)
  | dim2 (n d : Nat)
  deriving DecidableEq, Repr

/-- Output shape of one layer on one input shape (MXNet semantics:
`Conv2D` with stride 1 and the given padding, `AvgPool2D` in `valid`
convention, `Dense` flattening trailing axes).  `none` when the framework
would reject the input. -/
def Layer.outShape : Layer → Shape → Option Shape
  | .conv2D ch k p _, .dim4 n _ h w =>
      if k ≤ h + 2 * p ∧ k ≤ w + 2 * p then
        some (.dim4 n ch (h + 2 * p - k + 1) (w + 2 * p - k + 1))
      else none
  | .avgPool2D ps st, .dim4 n c h w =>
      if ps ≤ h ∧ ps ≤ w ∧ 0 < st then
        some (.dim4 n c ((h - ps) / st + 1) ((w - ps) / st + 1))
      else none
  | .dense u _, .dim4 n _ _ _ => some (.dim2 n u)
  | .dense u _, .dim2 n _ => some (.dim2 n u)
  | _, _ => none

/-- Cell 3: `for layer in net: X = layer(X); print(layer.name, 'output
shape:\t', X.shape)` — the list of shapes printed, one per layer, threading
the running shape through the layers.  `none` if some layer rejects. -/
def shapeInspection : List Layer → Shape → Option (List Shape)
  | [], _ => some []
  | l :: ls, s =>
      match l.outShape s with
      | none => none
      | some s' =>
          match shapeInspection ls s' with
          | none => none
          | some rest => some (s' :: rest)

/-! ## `evaluate_accuracy_gpu` (cell 7) -/

/-- Cell 7, line 2–3: `if not ctx: ctx =
list(net.collect_params().values())[0].list_ctx()[0]`.  Indexing `[0]` into an
empty Python list raises `IndexError`. -/
def resolveCtx {σ : Type} (net : Net σ) (ctx : Option Device) : Except String Device :=
  match ctx with
  | some c => .ok c
  | none =>
      match net.params with
      | [] => .error "IndexError"
      | p :: _ =>
          match p.list_ctx with
          | [] => .error "IndexError"
          | c :: _ => .ok c

/-- Cell 7, the loop: `for X, y in data_iter: X, y = X.as_in_context(ctx),
y.as_in_context(ctx); metric.add(d2l.accuracy(net(X), y), y.size)`.
The accumulator `metric = d2l.Accumulator(2)` is the running pair
(num corrected examples, num examples); its `add` sums componentwise
(modelled from the spec's "accuracy metric accumulator"). -/
def evalFold {σ : Type} (fw : Framework σ) (st : σ) (c : Device) :
    ℚ × ℚ → List (NDArray (List ℚ) × NDArray Nat) → Except String (ℚ × ℚ)
  | m, [] => .ok m
  | m, (X, y) :: rest =>
      let X' := X.as_in_context c
      let y' := y.as_in_context c
      match fw.forward st X' with
      | .error e => .error e
      | .ok y_hat =>
          evalFold fw st c
            (m.1 + (accuracy y_hat y' : ℚ), m.2 + (y'.size : ℚ)) rest

/-- Cell 7: `evaluate_accuracy_gpu(net, data_iter, ctx=None)` — resolve the
device, accumulate (corrected, total) over the iterator moving each batch to
the device first, return `metric[0]/metric[1]`. -/
def evaluate_accuracy_gpu {σ : Type} (fw : Framework σ) (net : Net σ)
    (data_iter : List (NDArray (List ℚ) × NDArray Nat)) (ctx : Option Device) :
    Except String ℚ :=
  match resolveCtx net ctx with
  | .error e => .error e
  | .ok c =>
      match evalFold fw net.st c (0, 0) data_iter with
      | .error e => .error e
      | .ok metric => pydiv metric.1 metric.2

/-! ### Spec-side reference quantities for the accuracy contract

These two definitions follow the spec's words ("the fraction of correctly
classified examples over the full iterator": the sum over all batches of
correct counts divided by the sum of example counts) and are compared with
the code-derived `evaluate_accuracy_gpu` in the claim theorems. -/

/-- Spec-side: total count of correctly classified examples over the
iterator, for a network whose (total) forward function is `F` applied to the
state `st`, with every batch moved to device `c` first. -/
def specTotalCorrect {σ : Type} (F : σ → NDArray (List ℚ) → NDArray (List ℚ))
    (st : σ) (c : Device) (iter : List (NDArray (List ℚ) × NDArray Nat)) : ℚ :=
  (iter.map (fun p =>
    (accuracy (F st (p.1.as_in_context c)) (p.2.as_in_context c) : ℚ))).sum

/-- Spec-side: total count of examples yielded by the iterator. -/
def specTotalExamples (iter : List (NDArray (List ℚ) × NDArray Nat)) : ℚ :=
  (iter.map (fun p => ((p.2).size : ℚ))).sum

/-! ## `train_ch5` (cell 9)

The loop body's framework calls are recorded as an event trace; the printed
lines and the animator's plot points are recorded as structured data.  The
run fails (`Except.error`) exactly where the Python code would raise. -/

/-- The initialization scheme passed to `net.initialize` (`init.Xavier()`). -/
inductive InitScheme where
  | xavier
  deriving DecidableEq, Repr

/-- The loss constructed in cell 9 (`gluon.loss.SoftmaxCrossEntropyLoss()`). -/
inductive LossKind where
  | softmaxCrossEntropy
  deriving DecidableEq, Repr

/-- The optimizer algorithm passed to `gluon.Trainer` (the string `'sgd'`). -/
inductive OptAlg where
  | sgd
  deriving DecidableEq, Repr

/-- One framework call made by `train_ch5`, in program order. -/
inductive Event where
  | initCall (force_reinit : Bool) (ctx : Device) (scheme : InitScheme)
  | mkLoss (kind : LossKind)
  | mkTrainer (params : List Parameter) (alg : OptAlg) (learning_rate : ℚ)
  | moveBatch (ctx : Device)
  | forwardPass (X : NDArray (List ℚ))
  | lossEval (y : NDArray Nat)
  | backwardPass
  | optStep (batch_size : Nat)
  | evalTest (epoch : Nat)
  deriving DecidableEq, Repr

/-- One `animator.add(x, (train_loss, train_acc, test_acc))` call
(`None` entries become `none`). -/
structure PlotPoint where
  x : ℚ
  train_loss : Option ℚ
  train_acc : Option ℚ
  test_acc : Option ℚ
  deriving DecidableEq, Repr

/-- One line printed by `train_ch5` after the epoch loop:
`print('loss %.3f, train acc %.3f, test acc %.3f' % ...)` and
`print('%.1f exampes/sec on %s' % ...)`. -/
inductive Line where
  | summary (loss train_acc test_acc : ℚ)
  | throughput (rate : ℚ) (ctx : Device)
  deriving DecidableEq, Repr

/-- Does the printed line carry a loss value / a training-accuracy value /
a test-accuracy value / a throughput value?  (Used to settle what the final
prints contain.) -/
def Line.hasLoss : Line → Bool
  | .summary _ _ _ => true
  | .throughput _ _ => false

/-- See `Line.hasLoss`. -/
def Line.hasThroughput : Line → Bool
  | .summary _ _ _ => false
  | .throughput _ _ => true

/-- Is this event a test-accuracy evaluation? -/
def Event.isEvalTest : Event → Bool
  | .evalTest _ => true
  | _ => false

/-- One `(X, y)` pair yielded by the training iterator, together with `dur`,
the wall-clock time the timer measures between `timer.start()` and
`timer.stop()` around this batch (modelled from the spec: the d2l `Timer`
sums measured intervals). -/
structure Batch where
  X : NDArray (List ℚ)
  y : NDArray Nat
  dur : ℚ
  deriving DecidableEq, Repr

/-- The mutable state of the epoch loop of `train_ch5`:
the framework parameter state, the three slots of
`metric = d2l.Accumulator(3)` (train-loss sum, train-acc sum, example count;
`add` sums componentwise — modelled from the spec's "metric accumulator"),
the Python local variables `train_loss`, `train_acc`
(`none` while unassigned), and the running `timer` total. -/
structure TState (σ : Type) where
  st : σ
  m0 : ℚ
  m1 : ℚ
  m2 : ℚ
  train_loss : Option ℚ
  train_acc : Option ℚ
  timerSum : ℚ

/-- Cell 9, body of `for i, (X, y) in enumerate(train_iter)`:
`timer.start()`; move `X`, `y` to `ctx`; `y_hat = net(X)`; `l = loss(y_hat,
y)`; `l.backward()`; `trainer.step(X.shape[0])`; `metric.add(l.sum(),
d2l.accuracy(y_hat, y), X.shape[0])`; `timer.stop()`;
`train_loss, train_acc = metric[0]/metric[2], metric[1]/metric[2]`;
every 50th batch, `animator.add(epoch + i/len(train_iter), (train_loss,
train_acc, None))`.  `nB` is `len(train_iter)` for this epoch. -/
def stepBatch {σ : Type} (fw : Framework σ) (lr : ℚ) (ctx : Device)
    (epoch nB i : Nat) (b : Batch) (s : TState σ) :
    Except String (TState σ × List Event × List PlotPoint) :=
  let X := b.X.as_in_context ctx
  let y := b.y.as_in_context ctx
  match fw.forward s.st X with
  | .error e => .error e
  | .ok y_hat =>
      match fw.lossFn y_hat y with
      | .error e => .error e
      | .ok l =>
          match fw.backward s.st l with
          | .error e => .error e
          | .ok st1 =>
              match fw.step st1 lr b.X.size with
              | .error e => .error e
              | .ok st2 =>
                  let m0 := s.m0 + l.data.sum
                  let m1 := s.m1 + (accuracy y_hat y : ℚ)
                  let m2 := s.m2 + (b.X.size : ℚ)
                  match pydiv m0 m2 with
                  | .error e => .error e
                  | .ok tl =>
                      match pydiv m1 m2 with
                      | .error e => .error e
                      | .ok ta =>
                          .ok
                            ({ st := st2, m0 := m0, m1 := m1, m2 := m2,
                               train_loss := some tl, train_acc := some ta,
                               timerSum := s.timerSum + b.dur },
                             [.moveBatch ctx, .forwardPass X, .lossEval y,
                              .backwardPass, .optStep b.X.size],
                             if (i + 1) % 50 = 0 then
                               [{ x := (epoch : ℚ) + (i : ℚ) / (nB : ℚ),
                                  train_loss := some tl, train_acc := some ta,
                                  test_acc := none }]
                             else [])

/-- The batch loop of one epoch, from batch index `i` on, collecting events
and plot points in order. -/
def runBatches {σ : Type} (fw : Framework σ) (lr : ℚ) (ctx : Device)
    (epoch nB : Nat) :
    Nat → TState σ → List Batch →
    Except String (TState σ × List Event × List PlotPoint)
  | _, s, [] => .ok (s, [], [])
  | i, s, b :: bs =>
      match stepBatch fw lr ctx epoch nB i b s with
      | .error e => .error e
      | .ok r1 =>
          match runBatches fw lr ctx epoch nB (i + 1) r1.1 bs with
          | .error e => .error e
          | .ok r2 => .ok (r2.1, r1.2.1 ++ r2.2.1, r1.2.2 ++ r2.2.2)

/-- Cell 9, one iteration of `for epoch in range(num_epochs)`:
`metric = d2l.Accumulator(3)` (fresh accumulator — the three slots are
zeroed), the batch loop, then `test_acc = evaluate_accuracy_gpu(net,
test_iter)` (no `ctx` argument) and `animator.add(epoch + 1, (None, None,
test_acc))`. -/
def runEpoch {σ : Type} (fw : Framework σ) (params : List Parameter)
    (test_iter : List (NDArray (List ℚ) × NDArray Nat)) (lr : ℚ) (ctx : Device)
    (epoch : Nat) (batches : List Batch) (s : TState σ) :
    Except String (TState σ × Option ℚ × List Event × List PlotPoint) :=
  match runBatches fw lr ctx epoch batches.length 0
      { s with m0 := 0, m1 := 0, m2 := 0 } batches with
  | .error e => .error e
  | .ok r =>
      match evaluate_accuracy_gpu fw { params := params, st := r.1.st } test_iter none with
      | .error e => .error e
      | .ok tacc =>
          .ok (r.1, some tacc, r.2.1 ++ [.evalTest epoch],
               r.2.2 ++ [{ x := (epoch : ℚ) + 1, train_loss := none,
                           train_acc := none, test_acc := some tacc }])

/-- The epoch loop from epoch `e`, for `n` more epochs, threading the loop
state and the Python local `test_acc` (`none` while unassigned). -/
def runEpochs {σ : Type} (fw : Framework σ) (params : List Parameter)
    (test_iter : List (NDArray (List ℚ) × NDArray Nat)) (lr : ℚ) (ctx : Device)
    (train_iter : Nat → List Batch) :
    Nat → Nat → TState σ → Option ℚ →
    Except String (TState σ × Option ℚ × List Event × List PlotPoint)
  | _, 0, s, tacc => .ok (s, tacc, [], [])
  | e, n + 1, s, _ =>
      match runEpoch fw params test_iter lr ctx e (train_iter e) s with
      | .error er => .error er
      | .ok r1 =>
          match runEpochs fw params test_iter lr ctx train_iter (e + 1) n r1.1 r1.2.1 with
          | .error er => .error er
          | .ok r2 =>
              .ok (r2.1, r2.2.1, r1.2.2.1 ++ r2.2.2.1, r1.2.2.2 ++ r2.2.2.2)

/-- Everything `train_ch5` leaves behind on a successful run: the framework
calls in order, the plot points, the two printed lines, and (for the
invariant claims) the final values of the loop's locals. -/
structure TrainOut (σ : Type) where
  st : σ
  events : List Event
  plot : List PlotPoint
  printed : List Line
  train_loss : Option ℚ
  train_acc : Option ℚ
  m2 : ℚ
  timerSum : ℚ

/-- Cell 9: `train_ch5(net, train_iter, test_iter, num_epochs, lr, ctx)`.

`net.initialize(force_reinit=True, ctx=ctx, init=init.Xavier())` re-creates
every parameter on `ctx` (so each parameter's `list_ctx()` becomes `[ctx]` —
modelled from the spec's "re-initialize all parameters ... on a target
device"); then the loss and the `'sgd'` trainer over `net.collect_params()`
are constructed, the epoch loop runs, and finally the two `print` calls
evaluate: the first reads the locals `train_loss`, `train_acc`, `test_acc`
(raising `NameError` if a name was never assigned — Python semantics,
modelled from the spec), the second computes
`metric[2] * num_epochs / timer.sum()`.

`train_iter e` is the sequence of `(X, y)` batches the iterator yields when
it is traversed for the `e`-th time (a `DataLoader` yields the same batches
each epoch; a one-shot generator yields them only on the first traversal).
On an error the lines printed before it are not reported. -/
def train_ch5 {σ : Type} (fw : Framework σ) (net0 : Net σ)
    (train_iter : Nat → List Batch)
    (test_iter : List (NDArray (List ℚ) × NDArray Nat))
    (num_epochs : Nat) (lr : ℚ) (ctx : Device) :
    Except String (TrainOut σ) :=
  match fw.initNet net0.st ctx with
  | .error e => .error e
  | .ok st0 =>
      let params := net0.params.map (fun _ => ({ list_ctx := [ctx] } : Parameter))
      let s0 : TState σ :=
        { st := st0, m0 := 0, m1 := 0, m2 := 0,
          train_loss := none, train_acc := none, timerSum := 0 }
      match runEpochs fw params test_iter lr ctx train_iter 0 num_epochs s0 none with
      | .error e => .error e
      | .ok r =>
          match r.1.train_loss with
          | none => .error "NameError"
          | some tl =>
              match r.1.train_acc with
              | none => .error "NameError"
              | some ta =>
                  match r.2.1 with
                  | none => .error "NameError"
                  | some tc =>
                      match pydiv (r.1.m2 * (num_epochs : ℚ)) r.1.timerSum with
                      | .error e => .error e
                      | .ok rate =>
                          .ok { st := r.1.st,
                                events :=
                                  [.initCall true ctx .xavier,
                                   .mkLoss .softmaxCrossEntropy,
                                   .mkTrainer params .sgd lr] ++ r.2.2.1,
                                plot := r.2.2.2,
                                printed := [.summary tl ta tc, .throughput rate ctx],
                                train_loss := r.1.train_loss,
                                train_acc := r.1.train_acc,
                                m2 := r.1.m2, timerSum := r.1.timerSum }

/-! ### Reference quantities for the training claims

Spec-side definitions (following the spec's words) that the claim theorems
compare with the code-derived run of `train_ch5`. -/

/-- The parameter state after processing one batch: forward on the moved
input, loss on the moved labels, backward, then one optimizer step scaled by
the batch size (for a framework whose operations are the total functions
`Ffwd`, `Floss`, `Fback`, `Fstep`). -/
def stepStateP {σ : Type} (Ffwd : σ → NDArray (List ℚ) → NDArray (List ℚ))
    (Floss : NDArray (List ℚ) → NDArray Nat → NDArray ℚ)
    (Fback : σ → NDArray ℚ → σ) (Fstep : σ → ℚ → Nat → σ)
    (lr : ℚ) (ctx : Device) (st : σ) (b : Batch) : σ :=
  let y_hat := Ffwd st (b.X.as_in_context ctx)
  Fstep (Fback st (Floss y_hat (b.y.as_in_context ctx))) lr b.X.size

/-- The summed per-example losses contributed by each batch in turn
(`l.sum()` per batch), threading the parameter state. -/
def lossContribs {σ : Type} (Ffwd : σ → NDArray (List ℚ) → NDArray (List ℚ))
    (Floss : NDArray (List ℚ) → NDArray Nat → NDArray ℚ)
    (Fback : σ → NDArray ℚ → σ) (Fstep : σ → ℚ → Nat → σ)
    (lr : ℚ) (ctx : Device) : σ → List Batch → List ℚ
  | _, [] => []
  | st, b :: bs =>
      (Floss (Ffwd st (b.X.as_in_context ctx)) (b.y.as_in_context ctx)).data.sum
        :: lossContribs Ffwd Floss Fback Fstep lr ctx
             (stepStateP Ffwd Floss Fback Fstep lr ctx st b) bs

/-- The correct-prediction counts contributed by each batch in turn
(`d2l.accuracy(y_hat, y)` per batch), threading the parameter state. -/
def accContribs {σ : Type} (Ffwd : σ → NDArray (List ℚ) → NDArray (List ℚ))
    (Floss : NDArray (List ℚ) → NDArray Nat → NDArray ℚ)
    (Fback : σ → NDArray ℚ → σ) (Fstep : σ → ℚ → Nat → σ)
    (lr : ℚ) (ctx : Device) : σ → List Batch → List ℚ
  | _, [] => []
  | st, b :: bs =>
      (accuracy (Ffwd st (b.X.as_in_context ctx)) (b.y.as_in_context ctx) : ℚ)
        :: accContribs Ffwd Floss Fback Fstep lr ctx
             (stepStateP Ffwd Floss Fback Fstep lr ctx st b) bs

/-- The framework calls one batch gives rise to, in program order. -/
def batchEvents (ctx : Device) (b : Batch) : List Event :=
  [.moveBatch ctx, .forwardPass (b.X.as_in_context ctx),
   .lossEval (b.y.as_in_context ctx), .backwardPass, .optStep b.X.size]

/-- The framework calls of one epoch: each batch's calls, then the test
evaluation. -/
def epochEvents (ctx : Device) (e : Nat) (bs : List Batch) : List Event :=
  (bs.map (batchEvents ctx)).flatten ++ [.evalTest e]

/-- The calls made before the epoch loop: initialization (Xavier, forced, on
the target device), loss construction, trainer construction over the
network's parameters. -/
def setupEvents (ctx : Device) (lr : ℚ) (params : List Parameter) : List Event :=
  [.initCall true ctx .xavier, .mkLoss .softmaxCrossEntropy,
   .mkTrainer params .sgd lr]

/-- Number of examples the training iterator yields in epoch `e`. -/
def epochExamples (ti : Nat → List Batch) (e : Nat) : ℚ :=
  ((ti e).map (fun b => (b.X.size : ℚ))).sum

/-- Measured time spent on the batches of epoch `e`. -/
def epochDur (ti : Nat → List Batch) (e : Nat) : ℚ :=
  ((ti e).map (fun b => b.dur)).sum

/-- Total number of training examples processed over all `E` epochs. -/
def totalExamplesAll (ti : Nat → List Batch) (E : Nat) : ℚ :=
  ((List.range E).map (epochExamples ti)).sum

/-- Total measured training time over all `E` epochs (the timer is never
reset). -/
def totalTime (ti : Nat → List Batch) (E : Nat) : ℚ :=
  ((List.range E).map (epochDur ti)).sum

/-- Hypothesis bundle: the framework's fallible operations all succeed and
agree with the total functions `Finit`, `Ffwd`, `Floss`, `Fback`, `Fstep`. -/
structure TotalOps {σ : Type} (fw : Framework σ) (Finit : σ → Device → σ)
    (Ffwd : σ → NDArray (List ℚ) → NDArray (List ℚ))
    (Floss : NDArray (List ℚ) → NDArray Nat → NDArray ℚ)
    (Fback : σ → NDArray ℚ → σ) (Fstep : σ → ℚ → Nat → σ) : Prop where
  init_eq : ∀ s c, fw.initNet s c = .ok (Finit s c)
  forward_eq : ∀ s X, fw.forward s X = .ok (Ffwd s X)
  loss_eq : ∀ yh y, fw.lossFn yh y = .ok (Floss yh y)
  backward_eq : ∀ s l, fw.backward s l = .ok (Fback s l)
  step_eq : ∀ s lr n, fw.step s lr n = .ok (Fstep s lr n)

/-! ### The run of `train_ch5` under a total framework

Pure mirrors of `stepBatch` / `runBatches` / `runEpochs` / `train_ch5` for a
framework whose operations are the total functions `Ffwd`, `Floss`, `Fback`,
`Fstep`, `Finit`.  The equivalence theorems below show the fallible run
returns exactly these values when the operations succeed; the claims are
then settled against these mirrors. -/

/-- Pure mirror of `stepBatch`. -/
def stepBatchP {σ : Type} (Ffwd : σ → NDArray (List ℚ) → NDArray (List ℚ))
    (Floss : NDArray (List ℚ) → NDArray Nat → NDArray ℚ)
    (Fback : σ → NDArray ℚ → σ) (Fstep : σ → ℚ → Nat → σ)
    (lr : ℚ) (ctx : Device) (epoch nB i : Nat) (b : Batch) (s : TState σ) :
    TState σ × List Event × List PlotPoint :=
  let y_hat := Ffwd s.st (b.X.as_in_context ctx)
  let l := Floss y_hat (b.y.as_in_context ctx)
  let m0 := s.m0 + l.data.sum
  let m1 := s.m1 + (accuracy y_hat (b.y.as_in_context ctx) : ℚ)
  let m2 := s.m2 + (b.X.size : ℚ)
  ({ st := stepStateP Ffwd Floss Fback Fstep lr ctx s.st b,
     m0 := m0, m1 := m1, m2 := m2,
     train_loss := some (m0 / m2), train_acc := some (m1 / m2),
     timerSum := s.timerSum + b.dur },
   batchEvents ctx b,
   if (i + 1) % 50 = 0 then
     [{ x := (epoch : ℚ) + (i : ℚ) / (nB : ℚ), train_loss := some (m0 / m2),
        train_acc := some (m1 / m2), test_acc := none }]
   else [])

/-- Pure mirror of `runBatches`. -/
def runBatchesP {σ : Type} (Ffwd : σ → NDArray (List ℚ) → NDArray (List ℚ))
    (Floss : NDArray (List ℚ) → NDArray Nat → NDArray ℚ)
    (Fback : σ → NDArray ℚ → σ) (Fstep : σ → ℚ → Nat → σ)
    (lr : ℚ) (ctx : Device) (epoch nB : Nat) :
    Nat → TState σ → List Batch → TState σ × List Event × List PlotPoint
  | _, s, [] => (s, [], [])
  | i, s, b :: bs =>
      let r1 := stepBatchP Ffwd Floss Fback Fstep lr ctx epoch nB i b s
      let r2 := runBatchesP Ffwd Floss Fback Fstep lr ctx epoch nB (i + 1) r1.1 bs
      (r2.1, r1.2.1 ++ r2.2.1, r1.2.2 ++ r2.2.2)

/-- Pure mirror of `runEpoch`; `cT` is the device the test evaluation
resolves to (the device of the network's first parameter). -/
def runEpochP {σ : Type} (Ffwd : σ → NDArray (List ℚ) → NDArray (List ℚ))
    (Floss : NDArray (List ℚ) → NDArray Nat → NDArray ℚ)
    (Fback : σ → NDArray ℚ → σ) (Fstep : σ → ℚ → Nat → σ) (cT : Device)
    (test_iter : List (NDArray (List ℚ) × NDArray Nat)) (lr : ℚ) (ctx : Device)
    (epoch : Nat) (batches : List Batch) (s : TState σ) :
    TState σ × Option ℚ × List Event × List PlotPoint :=
  let r := runBatchesP Ffwd Floss Fback Fstep lr ctx epoch batches.length 0
    { s with m0 := 0, m1 := 0, m2 := 0 } batches
  let tacc1 := specTotalCorrect Ffwd r.1.st cT test_iter /
    specTotalExamples test_iter
  (r.1, some tacc1,
   r.2.1 ++ [.evalTest epoch],
   r.2.2 ++ [{ x := (epoch : ℚ) + 1, train_loss := none, train_acc := none,
               test_acc := some tacc1 }])

/-- Pure mirror of `runEpochs`. -/
def runEpochsP {σ : Type} (Ffwd : σ → NDArray (List ℚ) → NDArray (List ℚ))
    (Floss : NDArray (List ℚ) → NDArray Nat → NDArray ℚ)
    (Fback : σ → NDArray ℚ → σ) (Fstep : σ → ℚ → Nat → σ) (cT : Device)
    (test_iter : List (NDArray (List ℚ) × NDArray Nat)) (lr : ℚ) (ctx : Device)
    (train_iter : Nat → List Batch) :
    Nat → Nat → TState σ → Option ℚ →
    TState σ × Option ℚ × List Event × List PlotPoint
  | _, 0, s, tacc => (s, tacc, [], [])
  | e, n + 1, s, _ =>
      let r1 := runEpochP Ffwd Floss Fback Fstep cT test_iter lr ctx e
        (train_iter e) s
      let rest := runEpochsP Ffwd Floss Fback Fstep cT test_iter lr ctx train_iter
        (e + 1) n r1.1 r1.2.1
      (rest.1, rest.2.1, r1.2.2.1 ++ rest.2.2.1, r1.2.2.2 ++ rest.2.2.2)

/-- Pure mirror of `train_ch5` (meaningful when the final locals are
assigned, i.e. the last epoch is nonempty and there is at least one epoch;
the equivalence theorem has those hypotheses). -/
def train_ch5P {σ : Type} (Finit : σ → Device → σ)
    (Ffwd : σ → NDArray (List ℚ) → NDArray (List ℚ))
    (Floss : NDArray (List ℚ) → NDArray Nat → NDArray ℚ)
    (Fback : σ → NDArray ℚ → σ) (Fstep : σ → ℚ → Nat → σ) (net0 : Net σ)
    (train_iter : Nat → List Batch)
    (test_iter : List (NDArray (List ℚ) × NDArray Nat))
    (num_epochs : Nat) (lr : ℚ) (ctx : Device) : TrainOut σ :=
  let params := net0.params.map (fun _ => ({ list_ctx := [ctx] } : Parameter))
  let s0 : TState σ :=
    { st := Finit net0.st ctx, m0 := 0, m1 := 0, m2 := 0,
      train_loss := none, train_acc := none, timerSum := 0 }
  let r := runEpochsP Ffwd Floss Fback Fstep ctx test_iter lr ctx train_iter
    0 num_epochs s0 none
  { st := r.1.st,
    events := setupEvents ctx lr params ++ r.2.2.1,
    plot := r.2.2.2,
    printed :=
      [.summary (r.1.train_loss.getD 0) (r.1.train_acc.getD 0) (r.2.1.getD 0),
       .throughput (r.1.m2 * (num_epochs : ℚ) / r.1.timerSum) ctx],
    train_loss := r.1.train_loss, train_acc := r.1.train_acc,
    m2 := r.1.m2, timerSum := r.1.timerSum }

/-! ## Concrete instances used to witness the claim theorems -/

/-- A total forward pass for the witness framework: scores are the input rows
themselves. -/
def cForward : Unit → NDArray (List ℚ) → NDArray (List ℚ) := fun _ X => X

/-- A total loss for the witness framework: loss 1 per example. -/
def cLoss : NDArray (List ℚ) → NDArray Nat → NDArray ℚ :=
  fun yh _ => { data := yh.data.map (fun _ => 1), ctx := yh.ctx }

/-- A concrete framework over the trivial parameter state, all of whose
operations succeed. -/
def cFw : Framework Unit where
  initNet := fun s _ => .ok s
  forward := fun s X => .ok (cForward s X)
  lossFn := fun yh y => .ok (cLoss yh y)
  backward := fun s _ => .ok s
  step := fun s _ _ => .ok s

/-- A training batch of `n` identical one-feature examples with label 0,
taking one time unit. -/
def mkBatch (n : Nat) : Batch where
  X := { data := List.replicate n [1], ctx := 0 }
  y := { data := List.replicate n 0, ctx := 0 }
  dur := 1

/-- A one-parameter network on device 0 over the trivial state. -/
def cNet : Net Unit := { params := [{ list_ctx := [0] }], st := () }

/-- A one-batch, one-example test iterator. -/
def cTest : List (NDArray (List ℚ) × NDArray Nat) :=
  [({ data := [[1]], ctx := 0 }, { data := [0], ctx := 0 })]

/-- A training iterator behaving like a one-shot generator: one
single-example batch on the first traversal, nothing afterwards. -/
def cIterOneShot : Nat → List Batch := fun e => if e = 0 then [mkBatch 1] else []

/-- A training iterator yielding 1, 3 and 2 examples in epochs 0, 1, 2. -/
def cIter132 : Nat → List Batch :=
  fun e => if e = 0 then [mkBatch 1] else if e = 1 then [mkBatch 3] else [mkBatch 2]

/-- A training iterator yielding one single-example batch every epoch. -/
def cIterOne : Nat → List Batch := fun _ => [mkBatch 1]

/-- A training iterator yielding no batches in any epoch. -/
def cIterEmpty : Nat → List Batch := fun _ => []

/-- A framework whose parameter initialization fails with a framework
error. -/
def cFwBadInit : Framework Unit :=
  { cFw with initNet := fun _ _ => .error "MXNetError" }

/-- The initial loop state over the trivial parameter state. -/
def cState0 : TState Unit :=
  { st := (), m0 := 0, m1 := 0, m2 := 0,
    train_loss := none, train_acc := none, timerSum := 0 }

end LeNet

namespace LeNet

/-! ## Basic lemmas -/

theorem size_as_in_context {α : Type} (a : NDArray α) (c : Device) :
    (a.as_in_context c).size = a.size := rfl

theorem shapeInspection_lenet :
    shapeInspection net (.dim4 1 1 28 28) =
      some [.dim4 1 6 28 28, .dim4 1 6 14 14, .dim4 1 16 10 10,
            .dim4 1 16 5 5, .dim2 1 120, .dim2 1 84, .dim2 1 10] := by
  decide

/-- Closed form of the accuracy-evaluation loop when the forward pass is
total: the accumulator ends at the componentwise sums over the iterator. -/
theorem evalFold_ok {σ : Type} (fw : Framework σ)
    (F : σ → NDArray (List ℚ) → NDArray (List ℚ))
    (hF : ∀ s X, fw.forward s X = .ok (F s X)) (st : σ) (c : Device)
    (iter : List (NDArray (List ℚ) × NDArray Nat)) :
    ∀ m : ℚ × ℚ,
      evalFold fw st c m iter =
        .ok (m.1 + specTotalCorrect F st c iter,
             m.2 + specTotalExamples iter) := by
  induction iter with
  | nil =>
      intro m
      simp [evalFold, specTotalCorrect, specTotalExamples]
  | cons hd tl ih =>
      intro m
      obtain ⟨X, y⟩ := hd
      simp only [evalFold, hF]
      rw [ih]
      simp only [specTotalCorrect, specTotalExamples, List.map_cons, List.sum_cons,
        Except.ok.injEq, Prod.mk.injEq, size_as_in_context]
      constructor <;> ring

/-! ## Claim C1 — the declared network topology -/

/-- C1 (counterexample): the claim says the notebook declares "a fixed
declarative list of six layers"; the list `net` declared in cell 1 does not
have six layers. -/
theorem net_not_six_layers : ¬ net.length = 6 := by decide

/-- C1 (amended): the network declared by the notebook is a fixed declarative
list of SEVEN layers forming the LeNet topology — exactly the ordered
sequence conv(6, kernel 5, padding 2, sigmoid), avgpool(2, stride 2),
conv(16, kernel 5, sigmoid), avgpool(2, stride 2), dense(120, sigmoid),
dense(84, sigmoid), dense(10, no activation) — and every entry is drawn from:
convolution with kernel size 5 with a given output-channel count and
activation, average pooling with window 2 and stride 2, or a dense layer with
a given output width and optional activation.  (Immutability holds because
`net` is a constant.) -/
theorem net_is_seven_layer_lenet :
    net = [.conv2D 6 5 2 (some .sigmoid), .avgPool2D 2 2,
           .conv2D 16 5 0 (some .sigmoid), .avgPool2D 2 2,
           .dense 120 (some .sigmoid), .dense 84 (some .sigmoid),
           .dense 10 none] ∧
    net.length = 7 ∧
    net.all (fun l =>
      match l with
      | .conv2D _ 5 _ (some _) => true
      | .avgPool2D 2 2 => true
      | .dense _ _ => true
      | _ => false) = true := by
  exact ⟨rfl, rfl, rfl⟩

/-! ## Claim C2 — the accuracy-evaluation contract -/

/-- C2: `evaluate_accuracy_gpu` returns the fraction of correctly classified
examples over the full iterator — the sum over all batches of correct counts
divided by the sum of example counts — invoking the network on each batch
moved to the compute device; and when `ctx` is not given, the device defaults
to the first device of the network's first parameter. -/
theorem evaluate_accuracy_gpu_fraction :
    (∀ (σ : Type) (net' : Net σ) (p : Parameter) ps (d : Device) ds,
       net'.params = p :: ps → p.list_ctx = d :: ds →
       resolveCtx net' none = .ok d) ∧
    (∀ (σ : Type) (fw : Framework σ)
       (F : σ → NDArray (List ℚ) → NDArray (List ℚ)) (net' : Net σ)
       iter (ctx : Option Device) (c : Device),
       (∀ s X, fw.forward s X = .ok (F s X)) →
       resolveCtx net' ctx = .ok c →
       specTotalExamples iter ≠ 0 →
       evaluate_accuracy_gpu fw net' iter ctx =
         .ok (specTotalCorrect F net'.st c iter / specTotalExamples iter)) := by
  constructor
  · intro σ net' p ps d ds hp hl
    simp [resolveCtx, hp, hl]
  · intro σ fw F net' iter ctx c hF hc hne
    simp only [evaluate_accuracy_gpu, hc]
    rw [evalFold_ok fw F hF net'.st c iter (0, 0)]
    simp [pydiv, hne]

/-- C2 witness: on the concrete one-parameter network and one-batch test
iterator, the default device resolves to device 0 and the returned accuracy
is 1/1 = 1. -/
theorem evaluate_accuracy_gpu_fraction_witness :
    evaluate_accuracy_gpu cFw cNet cTest none = .ok 1 := by
  have h := evaluate_accuracy_gpu_fraction.2 Unit cFw cForward cNet cTest none 0
    (fun _ _ => rfl) (by simp [resolveCtx, cNet])
    (by norm_num [specTotalExamples, cTest, NDArray.size])
  rw [h]
  norm_num [specTotalCorrect, specTotalExamples, cTest, cForward, accuracy,
    NDArray.as_in_context, NDArray.size, argmaxAux]

/-! ## Claim C8 — unstated preconditions of `evaluate_accuracy_gpu` -/

/-- C8: `evaluate_accuracy_gpu` returns a well-defined value only under two
unstated preconditions: if the iterator yields no example the result is the
division `0/0` on the empty accumulator (`ZeroDivisionError`), and if no
`ctx` is given and the network has no parameter, the device lookup indexes an
empty list (`IndexError`). -/
theorem evaluate_accuracy_gpu_preconditions :
    (∀ (σ : Type) (fw : Framework σ)
       (F : σ → NDArray (List ℚ) → NDArray (List ℚ)) (net' : Net σ)
       iter (ctx : Option Device) (c : Device),
       (∀ s X, fw.forward s X = .ok (F s X)) →
       resolveCtx net' ctx = .ok c →
       specTotalExamples iter = 0 →
       evaluate_accuracy_gpu fw net' iter ctx = .error "ZeroDivisionError") ∧
    (∀ (σ : Type) (fw : Framework σ) (net' : Net σ) iter,
       net'.params = [] →
       evaluate_accuracy_gpu fw net' iter none = .error "IndexError") := by
  constructor
  · intro σ fw F net' iter ctx c hF hc hz
    simp only [evaluate_accuracy_gpu, hc]
    rw [evalFold_ok fw F hF net'.st c iter (0, 0)]
    simp [pydiv, hz]
  · intro σ fw net' iter hp
    simp [evaluate_accuracy_gpu, resolveCtx, hp]

/-- C8 witness: with an empty iterator the concrete call raises
`ZeroDivisionError`; with no parameters and no `ctx` it raises
`IndexError`. -/
theorem evaluate_accuracy_gpu_preconditions_witness :
    evaluate_accuracy_gpu cFw cNet [] none = .error "ZeroDivisionError" ∧
    evaluate_accuracy_gpu cFw { params := [], st := () } cTest none =
      .error "IndexError" := by
  constructor
  · exact evaluate_accuracy_gpu_preconditions.1 Unit cFw cForward cNet [] none 0
      (fun _ _ => rfl) (by simp [resolveCtx, cNet])
      (by simp [specTotalExamples])
  · exact evaluate_accuracy_gpu_preconditions.2 Unit cFw { params := [], st := () }
      cTest rfl

/-! ## Lemmas on the training run -/

section TrainRun

variable {σ : Type} {fw : Framework σ} {Finit : σ → Device → σ}
  {Ffwd : σ → NDArray (List ℚ) → NDArray (List ℚ)}
  {Floss : NDArray (List ℚ) → NDArray Nat → NDArray ℚ}
  {Fback : σ → NDArray ℚ → σ} {Fstep : σ → ℚ → Nat → σ}

/-- Shorthand used below for a successful-evaluation helper. -/
theorem evaluate_ok (fw : Framework σ)
    (F : σ → NDArray (List ℚ) → NDArray (List ℚ)) (net' : Net σ)
    (iter : List (NDArray (List ℚ) × NDArray Nat)) (ctx : Option Device)
    (c : Device) (hF : ∀ s X, fw.forward s X = .ok (F s X))
    (hc : resolveCtx net' ctx = .ok c) (hne : specTotalExamples iter ≠ 0) :
    evaluate_accuracy_gpu fw net' iter ctx =
      .ok (specTotalCorrect F net'.st c iter / specTotalExamples iter) := by
  simp only [evaluate_accuracy_gpu, hc]
  rw [evalFold_ok fw F hF net'.st c iter (0, 0)]
  simp [pydiv, hne]

/-- When every framework operation succeeds and the batch is nonempty (so the
per-batch divisions do not hit a zero example count), `stepBatch` returns the
pure mirror's value. -/
theorem stepBatch_ok (hT : TotalOps fw Finit Ffwd Floss Fback Fstep)
    (lr : ℚ) (ctx : Device) (epoch nB i : Nat) (b : Batch) (s : TState σ)
    (hm : 0 ≤ s.m2) (hb : 0 < b.X.size) :
    stepBatch fw lr ctx epoch nB i b s =
      .ok (stepBatchP Ffwd Floss Fback Fstep lr ctx epoch nB i b s) := by
  have hq : (0 : ℚ) < (b.X.size : ℚ) := by exact_mod_cast hb
  have hm2 : ¬ s.m2 + (b.X.size : ℚ) = 0 := by linarith
  simp [stepBatch, stepBatchP, hT.forward_eq, hT.loss_eq, hT.backward_eq,
    hT.step_eq, pydiv, hm2, stepStateP, batchEvents]

/-- `runBatches` returns the pure mirror's value when every operation
succeeds, the incoming example count is nonnegative, and every batch is
nonempty. -/
theorem runBatches_ok (hT : TotalOps fw Finit Ffwd Floss Fback Fstep)
    (lr : ℚ) (ctx : Device) (epoch nB : Nat) :
    ∀ (bs : List Batch) (i : Nat) (s : TState σ),
      0 ≤ s.m2 → (∀ b ∈ bs, 0 < b.X.size) →
      runBatches fw lr ctx epoch nB i s bs =
        .ok (runBatchesP Ffwd Floss Fback Fstep lr ctx epoch nB i s bs) := by
  intro bs
  induction bs with
  | nil => intro i s _ _; simp [runBatches, runBatchesP]
  | cons b bs ih =>
      intro i s hm hsz
      have hb : 0 < b.X.size := hsz b (List.mem_cons_self b bs)
      have hm' : 0 ≤ s.m2 + (b.X.size : ℚ) := by positivity
      have hm2 : 0 ≤ (stepBatchP Ffwd Floss Fback Fstep lr ctx epoch nB i b s).1.m2 := hm'
      have hsb := stepBatch_ok hT lr ctx epoch nB i b s hm hb
      have hrb := ih (i + 1) (stepBatchP Ffwd Floss Fback Fstep lr ctx epoch nB i b s).1
        hm2 (fun b' hb' => hsz b' (List.mem_cons_of_mem b hb'))
      simp only [runBatches, hsb, hrb, runBatchesP]

theorem runBatchesP_st (lr : ℚ) (ctx : Device) (epoch nB : Nat) :
    ∀ (bs : List Batch) (i : Nat) (s : TState σ),
      (runBatchesP Ffwd Floss Fback Fstep lr ctx epoch nB i s bs).1.st =
        bs.foldl (stepStateP Ffwd Floss Fback Fstep lr ctx) s.st := by
  intro bs
  induction bs with
  | nil => intro i s; simp [runBatchesP]
  | cons b bs ih =>
      intro i s
      simp only [runBatchesP, List.foldl_cons]
      exact ih (i + 1) _

theorem runBatchesP_m0 (lr : ℚ) (ctx : Device) (epoch nB : Nat) :
    ∀ (bs : List Batch) (i : Nat) (s : TState σ),
      (runBatchesP Ffwd Floss Fback Fstep lr ctx epoch nB i s bs).1.m0 =
        s.m0 + (lossContribs Ffwd Floss Fback Fstep lr ctx s.st bs).sum := by
  intro bs
  induction bs with
  | nil => intro i s; simp [runBatchesP, lossContribs]
  | cons b bs ih =>
      intro i s
      simp only [runBatchesP, lossContribs, List.sum_cons]
      rw [ih (i + 1) _]
      simp only [stepBatchP, stepStateP]
      ring

theorem runBatchesP_m1 (lr : ℚ) (ctx : Device) (epoch nB : Nat) :
    ∀ (bs : List Batch) (i : Nat) (s : TState σ),
      (runBatchesP Ffwd Floss Fback Fstep lr ctx epoch nB i s bs).1.m1 =
        s.m1 + (accContribs Ffwd Floss Fback Fstep lr ctx s.st bs).sum := by
  intro bs
  induction bs with
  | nil => intro i s; simp [runBatchesP, accContribs]
  | cons b bs ih =>
      intro i s
      simp only [runBatchesP, accContribs, List.sum_cons]
      rw [ih (i + 1) _]
      simp only [stepBatchP, stepStateP]
      ring

theorem runBatchesP_m2 (lr : ℚ) (ctx : Device) (epoch nB : Nat) :
    ∀ (bs : List Batch) (i : Nat) (s : TState σ),
      (runBatchesP Ffwd Floss Fback Fstep lr ctx epoch nB i s bs).1.m2 =
        s.m2 + (bs.map (fun b => (b.X.size : ℚ))).sum := by
  intro bs
  induction bs with
  | nil => intro i s; simp [runBatchesP]
  | cons b bs ih =>
      intro i s
      simp only [runBatchesP, List.map_cons, List.sum_cons]
      rw [ih (i + 1) _]
      simp only [stepBatchP]
      ring

theorem runBatchesP_timer (lr : ℚ) (ctx : Device) (epoch nB : Nat) :
    ∀ (bs : List Batch) (i : Nat) (s : TState σ),
      (runBatchesP Ffwd Floss Fback Fstep lr ctx epoch nB i s bs).1.timerSum =
        s.timerSum + (bs.map (fun b => b.dur)).sum := by
  intro bs
  induction bs with
  | nil => intro i s; simp [runBatchesP]
  | cons b bs ih =>
      intro i s
      simp only [runBatchesP, List.map_cons, List.sum_cons]
      rw [ih (i + 1) _]
      simp only [stepBatchP]
      ring

theorem runBatchesP_events (lr : ℚ) (ctx : Device) (epoch nB : Nat) :
    ∀ (bs : List Batch) (i : Nat) (s : TState σ),
      (runBatchesP Ffwd Floss Fback Fstep lr ctx epoch nB i s bs).2.1 =
        (bs.map (batchEvents ctx)).flatten := by
  intro bs
  induction bs with
  | nil => intro i s; simp [runBatchesP]
  | cons b bs ih =>
      intro i s
      simp only [runBatchesP, List.map_cons, List.flatten_cons]
      rw [ih (i + 1) _]
      rfl

theorem runBatchesP_plots (lr : ℚ) (ctx : Device) (epoch nB : Nat) :
    ∀ (bs : List Batch) (i : Nat) (s : TState σ),
      ∀ p ∈ (runBatchesP Ffwd Floss Fback Fstep lr ctx epoch nB i s bs).2.2,
        p.test_acc = none := by
  intro bs
  induction bs with
  | nil => intro i s p hp; simp [runBatchesP] at hp
  | cons b bs ih =>
      intro i s p hp
      simp only [runBatchesP, List.mem_append] at hp
      rcases hp with hp | hp
      · simp only [stepBatchP] at hp
        by_cases h50 : (i + 1) % 50 = 0
        · simp [h50] at hp
          rw [hp]
        · simp [h50] at hp
      · exact ih (i + 1) _ p hp

theorem runBatchesP_locals (lr : ℚ) (ctx : Device) (epoch nB : Nat) :
    ∀ (bs : List Batch) (i : Nat) (s : TState σ), bs ≠ [] →
      (runBatchesP Ffwd Floss Fback Fstep lr ctx epoch nB i s bs).1.train_loss =
        some ((runBatchesP Ffwd Floss Fback Fstep lr ctx epoch nB i s bs).1.m0 /
              (runBatchesP Ffwd Floss Fback Fstep lr ctx epoch nB i s bs).1.m2) ∧
      (runBatchesP Ffwd Floss Fback Fstep lr ctx epoch nB i s bs).1.train_acc =
        some ((runBatchesP Ffwd Floss Fback Fstep lr ctx epoch nB i s bs).1.m1 /
              (runBatchesP Ffwd Floss Fback Fstep lr ctx epoch nB i s bs).1.m2) := by
  intro bs
  induction bs with
  | nil => intro i s h; exact absurd rfl h
  | cons b bs ih =>
      intro i s _
      cases bs with
      | nil => simp [runBatchesP, stepBatchP]
      | cons b' bs' =>
          simp only [runBatchesP]
          exact ih (i + 1) _ (by simp)

theorem lossContribs_length (lr : ℚ) (ctx : Device) :
    ∀ (bs : List Batch) (st : σ),
      (lossContribs Ffwd Floss Fback Fstep lr ctx st bs).length = bs.length := by
  intro bs
  induction bs with
  | nil => intro st; simp [lossContribs]
  | cons b bs ih => intro st; simp [lossContribs, ih]

theorem accContribs_length (lr : ℚ) (ctx : Device) :
    ∀ (bs : List Batch) (st : σ),
      (accContribs Ffwd Floss Fback Fstep lr ctx st bs).length = bs.length := by
  intro bs
  induction bs with
  | nil => intro st; simp [accContribs]
  | cons b bs ih => intro st; simp [accContribs, ih]
/-! ### One-epoch lemmas -/

theorem runEpochP_m2 (cT : Device)
    (test_iter : List (NDArray (List ℚ) × NDArray Nat)) (lr : ℚ) (ctx : Device)
    (epoch : Nat) (batches : List Batch) (s : TState σ) :
    (runEpochP Ffwd Floss Fback Fstep cT test_iter lr ctx epoch batches s).1.m2 =
      (batches.map (fun b => (b.X.size : ℚ))).sum := by
  simp only [runEpochP]
  rw [runBatchesP_m2]
  simp

theorem runEpochP_m0 (cT : Device)
    (test_iter : List (NDArray (List ℚ) × NDArray Nat)) (lr : ℚ) (ctx : Device)
    (epoch : Nat) (batches : List Batch) (s : TState σ) :
    (runEpochP Ffwd Floss Fback Fstep cT test_iter lr ctx epoch batches s).1.m0 =
      (lossContribs Ffwd Floss Fback Fstep lr ctx s.st batches).sum := by
  simp only [runEpochP]
  rw [runBatchesP_m0]
  simp

theorem runEpochP_m1 (cT : Device)
    (test_iter : List (NDArray (List ℚ) × NDArray Nat)) (lr : ℚ) (ctx : Device)
    (epoch : Nat) (batches : List Batch) (s : TState σ) :
    (runEpochP Ffwd Floss Fback Fstep cT test_iter lr ctx epoch batches s).1.m1 =
      (accContribs Ffwd Floss Fback Fstep lr ctx s.st batches).sum := by
  simp only [runEpochP]
  rw [runBatchesP_m1]
  simp

theorem runEpochP_timer (cT : Device)
    (test_iter : List (NDArray (List ℚ) × NDArray Nat)) (lr : ℚ) (ctx : Device)
    (epoch : Nat) (batches : List Batch) (s : TState σ) :
    (runEpochP Ffwd Floss Fback Fstep cT test_iter lr ctx epoch batches s).1.timerSum =
      s.timerSum + (batches.map (fun b => b.dur)).sum := by
  simp only [runEpochP]
  rw [runBatchesP_timer]

theorem runEpochP_st (cT : Device)
    (test_iter : List (NDArray (List ℚ) × NDArray Nat)) (lr : ℚ) (ctx : Device)
    (epoch : Nat) (batches : List Batch) (s : TState σ) :
    (runEpochP Ffwd Floss Fback Fstep cT test_iter lr ctx epoch batches s).1.st =
      batches.foldl (stepStateP Ffwd Floss Fback Fstep lr ctx) s.st := by
  simp only [runEpochP]
  rw [runBatchesP_st]

theorem runEpochP_locals (cT : Device)
    (test_iter : List (NDArray (List ℚ) × NDArray Nat)) (lr : ℚ) (ctx : Device)
    (epoch : Nat) (batches : List Batch) (s : TState σ) (h : batches ≠ []) :
    (runEpochP Ffwd Floss Fback Fstep cT test_iter lr ctx epoch batches s).1.train_loss =
      some ((runEpochP Ffwd Floss Fback Fstep cT test_iter lr ctx epoch batches s).1.m0 /
            (runEpochP Ffwd Floss Fback Fstep cT test_iter lr ctx epoch batches s).1.m2) ∧
    (runEpochP Ffwd Floss Fback Fstep cT test_iter lr ctx epoch batches s).1.train_acc =
      some ((runEpochP Ffwd Floss Fback Fstep cT test_iter lr ctx epoch batches s).1.m1 /
            (runEpochP Ffwd Floss Fback Fstep cT test_iter lr ctx epoch batches s).1.m2) := by
  exact runBatchesP_locals lr ctx epoch batches.length batches 0
    { s with m0 := 0, m1 := 0, m2 := 0 } h

theorem runEpochP_locals_empty (cT : Device)
    (test_iter : List (NDArray (List ℚ) × NDArray Nat)) (lr : ℚ) (ctx : Device)
    (epoch : Nat) (s : TState σ) :
    (runEpochP Ffwd Floss Fback Fstep cT test_iter lr ctx epoch [] s).1.train_loss =
      s.train_loss ∧
    (runEpochP Ffwd Floss Fback Fstep cT test_iter lr ctx epoch [] s).1.train_acc =
      s.train_acc ∧
    (runEpochP Ffwd Floss Fback Fstep cT test_iter lr ctx epoch [] s).1.timerSum =
      s.timerSum := by
  exact ⟨rfl, rfl, rfl⟩

theorem runEpochP_events (cT : Device)
    (test_iter : List (NDArray (List ℚ) × NDArray Nat)) (lr : ℚ) (ctx : Device)
    (epoch : Nat) (batches : List Batch) (s : TState σ) :
    (runEpochP Ffwd Floss Fback Fstep cT test_iter lr ctx epoch batches s).2.2.1 =
      epochEvents ctx epoch batches := by
  simp only [runEpochP]
  rw [runBatchesP_events]
  rfl

theorem runEpochP_plotsFM (cT : Device)
    (test_iter : List (NDArray (List ℚ) × NDArray Nat)) (lr : ℚ) (ctx : Device)
    (epoch : Nat) (batches : List Batch) (s : TState σ) :
    (runEpochP Ffwd Floss Fback Fstep cT test_iter lr ctx
        epoch batches s).2.2.2.filterMap
        (fun p => p.test_acc.map (fun _ => p.x)) = [(epoch : ℚ) + 1] := by
  simp only [runEpochP]
  rw [List.filterMap_append]
  have hb : (runBatchesP Ffwd Floss Fback Fstep lr ctx epoch batches.length 0
      { s with m0 := 0, m1 := 0, m2 := 0 } batches).2.2.filterMap
      (fun p => p.test_acc.map (fun _ => p.x)) = [] := by
    rw [List.filterMap_eq_nil_iff]
    intro p hp
    rw [runBatchesP_plots lr ctx epoch batches.length batches 0 _ p hp]
    rfl
  rw [hb]
  rfl

theorem runEpochP_tacc_isSome (cT : Device)
    (test_iter : List (NDArray (List ℚ) × NDArray Nat)) (lr : ℚ) (ctx : Device)
    (epoch : Nat) (batches : List Batch) (s : TState σ) :
    ((runEpochP Ffwd Floss Fback Fstep cT test_iter lr ctx
        epoch batches s).2.1).isSome = true := rfl

/-- `runEpoch` returns the pure mirror's value when every operation succeeds,
every batch is nonempty, the test resolution gives `cT`, and the test
iterator is nonempty. -/
theorem runEpoch_ok (hT : TotalOps fw Finit Ffwd Floss Fback Fstep)
    (params : List Parameter) (cT : Device)
    (hres : ∀ st : σ, resolveCtx ({ params := params, st := st } : Net σ) none = .ok cT)
    (test_iter : List (NDArray (List ℚ) × NDArray Nat))
    (hte : specTotalExamples test_iter ≠ 0) (lr : ℚ) (ctx : Device)
    (epoch : Nat) (batches : List Batch) (s : TState σ)
    (hsz : ∀ b ∈ batches, 0 < b.X.size) :
    runEpoch fw params test_iter lr ctx epoch batches s =
      .ok (runEpochP Ffwd Floss Fback Fstep cT test_iter lr ctx epoch batches s) := by
  have hrb := runBatches_ok hT lr ctx epoch batches.length batches 0
    { s with m0 := 0, m1 := 0, m2 := 0 } (le_refl 0) hsz
  have heval := evaluate_ok fw Ffwd
    { params := params,
      st := (runBatchesP Ffwd Floss Fback Fstep lr ctx epoch batches.length 0
        { s with m0 := 0, m1 := 0, m2 := 0 } batches).1.st }
    test_iter none cT hT.forward_eq (hres _) hte
  simp only [runEpoch, hrb, heval, runEpochP]

/-- `runEpochs` returns the pure mirror's value when every operation
succeeds, every batch in the window is nonempty, the test resolution gives
`cT`, and the test iterator is nonempty. -/
theorem runEpochs_ok (hT : TotalOps fw Finit Ffwd Floss Fback Fstep)
    (params : List Parameter) (cT : Device)
    (hres : ∀ st : σ, resolveCtx ({ params := params, st := st } : Net σ) none = .ok cT)
    (test_iter : List (NDArray (List ℚ) × NDArray Nat))
    (hte : specTotalExamples test_iter ≠ 0) (lr : ℚ) (ctx : Device)
    (ti : Nat → List Batch) :
    ∀ (n e : Nat) (s : TState σ) (tacc : Option ℚ),
      (∀ k, k < n → ∀ b ∈ ti (e + k), 0 < b.X.size) →
      runEpochs fw params test_iter lr ctx ti e n s tacc =
        .ok (runEpochsP Ffwd Floss Fback Fstep cT test_iter lr ctx ti e n s tacc) := by
  intro n
  induction n with
  | zero => intro e s tacc _; simp [runEpochs, runEpochsP]
  | succ n ih =>
      intro e s tacc hsz
      have hsz0 : ∀ b ∈ ti e, 0 < b.X.size := by
        have h := hsz 0 (Nat.succ_pos n)
        simpa using h
      have hshift : ∀ k, k < n → ∀ b ∈ ti (e + 1 + k), 0 < b.X.size := by
        intro k hk b hb
        refine hsz (k + 1) (by omega) b ?_
        rw [show e + (k + 1) = e + 1 + k from by omega]
        exact hb
      have hep := runEpoch_ok hT params cT hres test_iter hte lr ctx e (ti e) s hsz0
      have hnext := ih (e + 1)
        (runEpochP Ffwd Floss Fback Fstep cT test_iter lr ctx e (ti e) s).1
        (runEpochP Ffwd Floss Fback Fstep cT test_iter lr ctx e (ti e) s).2.1 hshift
      simp only [runEpochs, hep, hnext, runEpochsP]

/-! ### Epoch-loop lemmas (on the pure mirror) -/

theorem runEpochsP_timer (cT : Device)
    (test_iter : List (NDArray (List ℚ) × NDArray Nat)) (lr : ℚ) (ctx : Device)
    (ti : Nat → List Batch) :
    ∀ (n e : Nat) (s : TState σ) (tacc : Option ℚ),
      (runEpochsP Ffwd Floss Fback Fstep cT test_iter lr ctx ti e n s tacc).1.timerSum =
        s.timerSum + ((List.range' e n).map (epochDur ti)).sum := by
  intro n
  induction n with
  | zero => intro e s tacc; simp [runEpochsP]
  | succ n ih =>
      intro e s tacc
      have hb : (runEpochsP Ffwd Floss Fback Fstep cT test_iter lr ctx ti
            e (n + 1) s tacc).1 =
          (runEpochsP Ffwd Floss Fback Fstep cT test_iter lr ctx ti (e + 1) n
            (runEpochP Ffwd Floss Fback Fstep cT test_iter lr ctx e (ti e) s).1
            (runEpochP Ffwd Floss Fback Fstep cT test_iter lr ctx e (ti e) s).2.1).1 :=
        rfl
      rw [hb, ih (e + 1) _ _, runEpochP_timer]
      rw [List.range'_succ]
      simp only [List.map_cons, List.sum_cons, epochDur]
      ring

theorem runEpochsP_events (cT : Device)
    (test_iter : List (NDArray (List ℚ) × NDArray Nat)) (lr : ℚ) (ctx : Device)
    (ti : Nat → List Batch) :
    ∀ (n e : Nat) (s : TState σ) (tacc : Option ℚ),
      (runEpochsP Ffwd Floss Fback Fstep cT test_iter lr ctx ti e n s tacc).2.2.1 =
        ((List.range' e n).map (fun k => epochEvents ctx k (ti k))).flatten := by
  intro n
  induction n with
  | zero => intro e s tacc; simp [runEpochsP]
  | succ n ih =>
      intro e s tacc
      have hb : (runEpochsP Ffwd Floss Fback Fstep cT test_iter lr ctx ti
            e (n + 1) s tacc).2.2.1 =
          (runEpochP Ffwd Floss Fback Fstep cT test_iter lr ctx e (ti e) s).2.2.1 ++
          (runEpochsP Ffwd Floss Fback Fstep cT test_iter lr ctx ti (e + 1) n
            (runEpochP Ffwd Floss Fback Fstep cT test_iter lr ctx e (ti e) s).1
            (runEpochP Ffwd Floss Fback Fstep cT test_iter lr ctx e (ti e) s).2.1).2.2.1 :=
        rfl
      rw [hb, ih (e + 1) _ _, runEpochP_events]
      rw [List.range'_succ]
      simp

theorem runEpochsP_plots (cT : Device)
    (test_iter : List (NDArray (List ℚ) × NDArray Nat)) (lr : ℚ) (ctx : Device)
    (ti : Nat → List Batch) :
    ∀ (n e : Nat) (s : TState σ) (tacc : Option ℚ),
      (runEpochsP Ffwd Floss Fback Fstep cT test_iter lr ctx ti e n s tacc).2.2.2.filterMap
          (fun p => p.test_acc.map (fun _ => p.x)) =
        (List.range' e n).map (fun k => (k : ℚ) + 1) := by
  intro n
  induction n with
  | zero => intro e s tacc; simp [runEpochsP]
  | succ n ih =>
      intro e s tacc
      have hb : (runEpochsP Ffwd Floss Fback Fstep cT test_iter lr ctx ti
            e (n + 1) s tacc).2.2.2 =
          (runEpochP Ffwd Floss Fback Fstep cT test_iter lr ctx e (ti e) s).2.2.2 ++
          (runEpochsP Ffwd Floss Fback Fstep cT test_iter lr ctx ti (e + 1) n
            (runEpochP Ffwd Floss Fback Fstep cT test_iter lr ctx e (ti e) s).1
            (runEpochP Ffwd Floss Fback Fstep cT test_iter lr ctx e (ti e) s).2.1).2.2.2 :=
        rfl
      rw [hb, List.filterMap_append, ih (e + 1) _ _, runEpochP_plotsFM]
      rw [List.range'_succ]
      simp

theorem runEpochsP_tacc_isSome (cT : Device)
    (test_iter : List (NDArray (List ℚ) × NDArray Nat)) (lr : ℚ) (ctx : Device)
    (ti : Nat → List Batch) :
    ∀ (n e : Nat) (s : TState σ) (tacc : Option ℚ),
      (tacc.isSome = true ∨ n ≠ 0) →
      ((runEpochsP Ffwd Floss Fback Fstep cT test_iter lr ctx ti e n s tacc).2.1).isSome
        = true := by
  intro n
  induction n with
  | zero =>
      intro e s tacc h
      rcases h with h | h
      · simpa [runEpochsP] using h
      · exact absurd rfl h
  | succ n ih =>
      intro e s tacc _
      exact ih (e + 1)
        (runEpochP Ffwd Floss Fback Fstep cT test_iter lr ctx e (ti e) s).1
        (runEpochP Ffwd Floss Fback Fstep cT test_iter lr ctx e (ti e) s).2.1
        (Or.inl (runEpochP_tacc_isSome cT test_iter lr ctx e (ti e) s))

theorem runEpochsP_locals_empty (cT : Device)
    (test_iter : List (NDArray (List ℚ) × NDArray Nat)) (lr : ℚ) (ctx : Device)
    (ti : Nat → List Batch) :
    ∀ (n e : Nat) (s : TState σ) (tacc : Option ℚ),
      (∀ k, k < n → ti (e + k) = []) →
      (runEpochsP Ffwd Floss Fback Fstep cT test_iter lr ctx ti e n s tacc).1.train_loss
          = s.train_loss ∧
      (runEpochsP Ffwd Floss Fback Fstep cT test_iter lr ctx ti e n s tacc).1.train_acc
          = s.train_acc ∧
      (runEpochsP Ffwd Floss Fback Fstep cT test_iter lr ctx ti e n s tacc).1.timerSum
          = s.timerSum := by
  intro n
  induction n with
  | zero => intro e s tacc _; exact ⟨rfl, rfl, rfl⟩
  | succ n ih =>
      intro e s tacc hall
      have h0 : ti e = [] := by
        have h := hall 0 (Nat.succ_pos n)
        simpa using h
      have hshift : ∀ k, k < n → ti (e + 1 + k) = [] := by
        intro k hk
        rw [show e + 1 + k = e + (k + 1) from by omega]
        exact hall (k + 1) (by omega)
      obtain ⟨hl, ha, ht⟩ := ih (e + 1)
        (runEpochP Ffwd Floss Fback Fstep cT test_iter lr ctx e (ti e) s).1
        (runEpochP Ffwd Floss Fback Fstep cT test_iter lr ctx e (ti e) s).2.1 hshift
      have hloc : (runEpochP Ffwd Floss Fback Fstep cT test_iter lr ctx
            e (ti e) s).1.train_loss = s.train_loss ∧
          (runEpochP Ffwd Floss Fback Fstep cT test_iter lr ctx
            e (ti e) s).1.train_acc = s.train_acc ∧
          (runEpochP Ffwd Floss Fback Fstep cT test_iter lr ctx
            e (ti e) s).1.timerSum = s.timerSum := by
        rw [h0]
        exact runEpochP_locals_empty cT test_iter lr ctx e s
      exact ⟨hl.trans hloc.1, ha.trans hloc.2.1, ht.trans hloc.2.2⟩

theorem runEpochsP_locals_last (cT : Device)
    (test_iter : List (NDArray (List ℚ) × NDArray Nat)) (lr : ℚ) (ctx : Device)
    (ti : Nat → List Batch) :
    ∀ (n e : Nat) (s : TState σ) (tacc : Option ℚ), 0 < n → ti (e + n - 1) ≠ [] →
      (runEpochsP Ffwd Floss Fback Fstep cT test_iter lr ctx ti e n s tacc).1.train_loss =
        some ((runEpochsP Ffwd Floss Fback Fstep cT test_iter lr ctx ti e n s tacc).1.m0 /
              (runEpochsP Ffwd Floss Fback Fstep cT test_iter lr ctx ti e n s tacc).1.m2) ∧
      (runEpochsP Ffwd Floss Fback Fstep cT test_iter lr ctx ti e n s tacc).1.train_acc =
        some ((runEpochsP Ffwd Floss Fback Fstep cT test_iter lr ctx ti e n s tacc).1.m1 /
              (runEpochsP Ffwd Floss Fback Fstep cT test_iter lr ctx ti e n s tacc).1.m2) := by
  intro n
  induction n with
  | zero => intro e s tacc h; exact absurd h (by omega)
  | succ n ih =>
      intro e s tacc _ hlast
      cases n with
      | zero =>
          exact runEpochP_locals cT test_iter lr ctx e (ti e) s (by simpa using hlast)
      | succ n' =>
          refine ih (e + 1)
            (runEpochP Ffwd Floss Fback Fstep cT test_iter lr ctx e (ti e) s).1
            (runEpochP Ffwd Floss Fback Fstep cT test_iter lr ctx e (ti e) s).2.1
            (by omega) ?_
          rw [show e + 1 + (n' + 1) - 1 = e + (n' + 1 + 1) - 1 from by omega]
          exact hlast

theorem runEpochsP_metric_last (cT : Device)
    (test_iter : List (NDArray (List ℚ) × NDArray Nat)) (lr : ℚ) (ctx : Device)
    (ti : Nat → List Batch) :
    ∀ (n e : Nat) (s : TState σ) (tacc : Option ℚ), 0 < n →
      ∃ stPre : σ,
        (runEpochsP Ffwd Floss Fback Fstep cT test_iter lr ctx ti e n s tacc).1.m2 =
          epochExamples ti (e + n - 1) ∧
        (runEpochsP Ffwd Floss Fback Fstep cT test_iter lr ctx ti e n s tacc).1.m0 =
          (lossContribs Ffwd Floss Fback Fstep lr ctx stPre (ti (e + n - 1))).sum ∧
        (runEpochsP Ffwd Floss Fback Fstep cT test_iter lr ctx ti e n s tacc).1.m1 =
          (accContribs Ffwd Floss Fback Fstep lr ctx stPre (ti (e + n - 1))).sum := by
  intro n
  induction n with
  | zero => intro e s tacc h; exact absurd h (by omega)
  | succ n ih =>
      intro e s tacc _
      cases n with
      | zero =>
          refine ⟨s.st, ?_, ?_, ?_⟩
          · exact runEpochP_m2 cT test_iter lr ctx e (ti e) s
          · exact runEpochP_m0 cT test_iter lr ctx e (ti e) s
          · exact runEpochP_m1 cT test_iter lr ctx e (ti e) s
      | succ n' =>
          obtain ⟨stPre, h2, h0, h1⟩ := ih (e + 1)
            (runEpochP Ffwd Floss Fback Fstep cT test_iter lr ctx e (ti e) s).1
            (runEpochP Ffwd Floss Fback Fstep cT test_iter lr ctx e (ti e) s).2.1
            (by omega)
          refine ⟨stPre, ?_, ?_, ?_⟩ <;>
            rw [show e + (n' + 1 + 1) - 1 = e + 1 + (n' + 1) - 1 from by omega]
          · exact h2
          · exact h0
          · exact h1

theorem runEpochsP_split (cT : Device)
    (test_iter : List (NDArray (List ℚ) × NDArray Nat)) (lr : ℚ) (ctx : Device)
    (ti : Nat → List Batch) :
    ∀ (m n e : Nat) (s : TState σ) (tacc : Option ℚ),
      runEpochsP Ffwd Floss Fback Fstep cT test_iter lr ctx ti e (m + n) s tacc =
        ((runEpochsP Ffwd Floss Fback Fstep cT test_iter lr ctx ti (e + m) n
            (runEpochsP Ffwd Floss Fback Fstep cT test_iter lr ctx ti e m s tacc).1
            (runEpochsP Ffwd Floss Fback Fstep cT test_iter lr ctx ti e m s tacc).2.1).1,
         (runEpochsP Ffwd Floss Fback Fstep cT test_iter lr ctx ti (e + m) n
            (runEpochsP Ffwd Floss Fback Fstep cT test_iter lr ctx ti e m s tacc).1
            (runEpochsP Ffwd Floss Fback Fstep cT test_iter lr ctx ti e m s tacc).2.1).2.1,
         (runEpochsP Ffwd Floss Fback Fstep cT test_iter lr ctx ti e m s tacc).2.2.1 ++
           (runEpochsP Ffwd Floss Fback Fstep cT test_iter lr ctx ti (e + m) n
            (runEpochsP Ffwd Floss Fback Fstep cT test_iter lr ctx ti e m s tacc).1
            (runEpochsP Ffwd Floss Fback Fstep cT test_iter lr ctx ti e m s tacc).2.1).2.2.1,
         (runEpochsP Ffwd Floss Fback Fstep cT test_iter lr ctx ti e m s tacc).2.2.2 ++
           (runEpochsP Ffwd Floss Fback Fstep cT test_iter lr ctx ti (e + m) n
            (runEpochsP Ffwd Floss Fback Fstep cT test_iter lr ctx ti e m s tacc).1
            (runEpochsP Ffwd Floss Fback Fstep cT test_iter lr ctx ti e m s tacc).2.1).2.2.2) := by
  intro m
  induction m with
  | zero =>
      intro n e s tacc
      rcases hr : runEpochsP Ffwd Floss Fback Fstep cT test_iter lr ctx ti e (0 + n) s tacc
        with ⟨a, b, c, d⟩
      rw [show e + 0 = e from rfl]
      rw [show (runEpochsP Ffwd Floss Fback Fstep cT test_iter lr ctx ti e 0 s tacc) =
        (s, tacc, [], []) from rfl]
      rw [show (0 : Nat) + n = n from by omega] at hr
      rw [hr]
      simp
  | succ m ih =>
      intro n e s tacc
      rw [show m + 1 + n = (m + n) + 1 from by omega]
      have hb1 : ∀ (k : Nat) (s' : TState σ) (t' : Option ℚ),
          runEpochsP Ffwd Floss Fback Fstep cT test_iter lr ctx ti e (k + 1) s' t' =
            ((runEpochsP Ffwd Floss Fback Fstep cT test_iter lr ctx ti (e + 1) k
              (runEpochP Ffwd Floss Fback Fstep cT test_iter lr ctx e (ti e) s').1
              (runEpochP Ffwd Floss Fback Fstep cT test_iter lr ctx e (ti e) s').2.1).1,
             (runEpochsP Ffwd Floss Fback Fstep cT test_iter lr ctx ti (e + 1) k
              (runEpochP Ffwd Floss Fback Fstep cT test_iter lr ctx e (ti e) s').1
              (runEpochP Ffwd Floss Fback Fstep cT test_iter lr ctx e (ti e) s').2.1).2.1,
             (runEpochP Ffwd Floss Fback Fstep cT test_iter lr ctx e (ti e) s').2.2.1 ++
               (runEpochsP Ffwd Floss Fback Fstep cT test_iter lr ctx ti (e + 1) k
                (runEpochP Ffwd Floss Fback Fstep cT test_iter lr ctx e (ti e) s').1
                (runEpochP Ffwd Floss Fback Fstep cT test_iter lr ctx e (ti e) s').2.1).2.2.1,
             (runEpochP Ffwd Floss Fback Fstep cT test_iter lr ctx e (ti e) s').2.2.2 ++
               (runEpochsP Ffwd Floss Fback Fstep cT test_iter lr ctx ti (e + 1) k
                (runEpochP Ffwd Floss Fback Fstep cT test_iter lr ctx e (ti e) s').1
                (runEpochP Ffwd Floss Fback Fstep cT test_iter lr ctx e (ti e) s').2.1).2.2.2) := by
        intro k s' t'
        rfl
      rw [hb1 (m + n) s tacc, ih n (e + 1) _ _, hb1 m s tacc]
      rw [show e + 1 + m = e + (m + 1) from by omega]
      simp [List.append_assoc]

/-- Master theorem: under a total framework, with at least one epoch, a
nonempty final epoch, nonempty batches, nonzero total training time, at
least one network parameter and a nonempty test iterator, `train_ch5`
succeeds and returns the pure mirror's value. -/
theorem train_ch5_ok (hT : TotalOps fw Finit Ffwd Floss Fback Fstep)
    (net0 : Net σ) (ti : Nat → List Batch)
    (te : List (NDArray (List ℚ) × NDArray Nat)) (E : Nat) (lr : ℚ) (ctx : Device)
    (hE : 0 < E) (hlast : ti (E - 1) ≠ [])
    (hsz : ∀ e, e < E → ∀ b ∈ ti e, 0 < b.X.size)
    (htime : totalTime ti E ≠ 0)
    (hp : net0.params ≠ []) (hte : specTotalExamples te ≠ 0) :
    train_ch5 fw net0 ti te E lr ctx =
      .ok (train_ch5P Finit Ffwd Floss Fback Fstep net0 ti te E lr ctx) := by
  obtain ⟨p0, ps0, hps⟩ : ∃ p0 ps0, net0.params = p0 :: ps0 := by
    cases h : net0.params with
    | nil => exact absurd h hp
    | cons a l => exact ⟨a, l, rfl⟩
  have hres : ∀ st : σ, resolveCtx
      ({ params := net0.params.map (fun _ => ({ list_ctx := [ctx] } : Parameter)),
         st := st } : Net σ) none = .ok ctx := by
    intro st
    simp [resolveCtx, hps]
  have hsz' : ∀ k, k < E → ∀ b ∈ ti (0 + k), 0 < b.X.size := by
    intro k hk b hb
    exact hsz k hk b (by simpa using hb)
  have hre := runEpochs_ok hT _ ctx hres te hte lr ctx ti E 0
    { st := Finit net0.st ctx, m0 := 0, m1 := 0, m2 := 0,
      train_loss := none, train_acc := none, timerSum := 0 } none hsz'
  have hloc := @runEpochsP_locals_last σ Ffwd Floss Fback Fstep ctx te lr ctx ti E 0
    { st := Finit net0.st ctx, m0 := 0, m1 := 0, m2 := 0,
      train_loss := none, train_acc := none, timerSum := 0 } none hE
    (by simpa using hlast)
  have htac := @runEpochsP_tacc_isSome σ Ffwd Floss Fback Fstep ctx te lr ctx ti E 0
    { st := Finit net0.st ctx, m0 := 0, m1 := 0, m2 := 0,
      train_loss := none, train_acc := none, timerSum := 0 } none
    (Or.inr (by omega))
  obtain ⟨tc, htc⟩ := Option.isSome_iff_exists.mp htac
  have htimer := @runEpochsP_timer σ Ffwd Floss Fback Fstep ctx te lr ctx ti E 0
    { st := Finit net0.st ctx, m0 := 0, m1 := 0, m2 := 0,
      train_loss := none, train_acc := none, timerSum := 0 } none
  have ht0 : (runEpochsP Ffwd Floss Fback Fstep ctx te lr ctx ti 0 E
      { st := Finit net0.st ctx, m0 := 0, m1 := 0, m2 := 0,
        train_loss := none, train_acc := none, timerSum := 0 } none).1.timerSum ≠ 0 := by
    rw [htimer]
    rw [show ((List.range' 0 E).map (epochDur ti)).sum = totalTime ti E from by
      rw [totalTime, List.range_eq_range']]
    simpa using htime
  simp only [train_ch5, hT.init_eq, hre, hloc.1, hloc.2, htc, pydiv, if_neg ht0,
    train_ch5P, Option.getD_some, setupEvents]
end TrainRun

/-! ## Claim C3 — the training loop's operation sequence -/

/-- C3: on a successful run, `train_ch5` first re-initializes all parameters
(Xavier, forced, on the target device), then constructs the softmax
cross-entropy loss and a plain SGD trainer bound to the network's parameters,
and then, for each batch of each epoch, moves the batch to the target device,
computes the forward pass and the loss on the moved data, runs
backpropagation, and takes exactly one optimizer step scaled by the size of
that batch — the event trace is exactly the setup events followed by each
epoch's per-batch event blocks. -/
theorem train_ch5_operation_sequence {σ : Type} (fw : Framework σ)
    (Finit : σ → Device → σ) (Ffwd : σ → NDArray (List ℚ) → NDArray (List ℚ))
    (Floss : NDArray (List ℚ) → NDArray Nat → NDArray ℚ)
    (Fback : σ → NDArray ℚ → σ) (Fstep : σ → ℚ → Nat → σ)
    (net0 : Net σ) (ti : Nat → List Batch)
    (te : List (NDArray (List ℚ) × NDArray Nat)) (E : Nat) (lr : ℚ) (ctx : Device)
    (hT : TotalOps fw Finit Ffwd Floss Fback Fstep)
    (hE : 0 < E) (hne : ∀ e, e < E → ti e ≠ [])
    (hsz : ∀ e, e < E → ∀ b ∈ ti e, 0 < b.X.size)
    (htime : totalTime ti E ≠ 0)
    (hp : net0.params ≠ []) (hte : specTotalExamples te ≠ 0) :
    ∃ out, train_ch5 fw net0 ti te E lr ctx = .ok out ∧
      out.events =
        setupEvents ctx lr
            (net0.params.map (fun _ => ({ list_ctx := [ctx] } : Parameter))) ++
          ((List.range E).map (fun e => epochEvents ctx e (ti e))).flatten ∧
      (∀ b, batchEvents ctx b =
        [.moveBatch ctx, .forwardPass (b.X.as_in_context ctx),
         .lossEval (b.y.as_in_context ctx), .backwardPass, .optStep b.X.size]) ∧
      (∀ e bs, epochEvents ctx e bs =
        (bs.map (batchEvents ctx)).flatten ++ [.evalTest e]) ∧
      setupEvents ctx lr
          (net0.params.map (fun _ => ({ list_ctx := [ctx] } : Parameter))) =
        [.initCall true ctx .xavier, .mkLoss .softmaxCrossEntropy,
         .mkTrainer (net0.params.map (fun _ => ({ list_ctx := [ctx] } : Parameter)))
           .sgd lr] := by
  refine ⟨train_ch5P Finit Ffwd Floss Fback Fstep net0 ti te E lr ctx,
    train_ch5_ok hT net0 ti te E lr ctx hE (hne (E - 1) (by omega)) hsz htime hp hte,
    ?_, fun b => rfl, fun e bs => rfl, rfl⟩
  show setupEvents ctx lr _ ++ _ = _
  rw [runEpochsP_events, List.range_eq_range']

/-- C3 witness: the concrete one-epoch, one-batch run produces exactly the
setup events followed by the single epoch's events. -/
theorem train_ch5_operation_sequence_witness :
    (train_ch5 cFw cNet cIterOne cTest 1 1 0).map (fun out => out.events) =
      .ok (setupEvents 0 1 [{ list_ctx := [0] }] ++ epochEvents 0 0 [mkBatch 1]) := by
  obtain ⟨out, hok, hev, -, -, -⟩ :=
    train_ch5_operation_sequence cFw (fun s _ => s) cForward cLoss
      (fun s _ => s) (fun s _ _ => s) cNet cIterOne cTest 1 1 0
      ⟨fun _ _ => rfl, fun _ _ => rfl, fun _ _ => rfl, fun _ _ => rfl,
        fun _ _ _ => rfl⟩
      (by norm_num) (fun e _ => by simp [cIterOne])
      (fun e _ b hb => by
        simp [cIterOne] at hb
        subst hb
        norm_num [mkBatch, NDArray.size])
      (by norm_num [totalTime, epochDur, cIterOne, mkBatch, List.range_succ])
      (by simp [cNet]) (by norm_num [specTotalExamples, cTest, NDArray.size])
  rw [hok]
  simp only [Except.map]
  rw [hev]
  simp [cIterOne, cNet, List.range_succ]

/-! ## Claim C4 — epoch count and per-epoch test evaluation -/

theorem flatten_map_singleton {α β : Type} (l : List α) (f : α → β) :
    (l.map (fun x => [f x])).flatten = l.map f := by
  induction l with
  | nil => rfl
  | cons a l ih => simp [ih]

theorem filter_isEvalTest_epoch (ctx : Device) (e : Nat) (bs : List Batch) :
    (epochEvents ctx e bs).filter Event.isEvalTest = [Event.evalTest e] := by
  rw [epochEvents, List.filter_append, List.filter_flatten]
  have h : (bs.map (batchEvents ctx)).map (List.filter Event.isEvalTest) =
      bs.map (fun _ => ([] : List Event)) := by
    rw [List.map_map]
    exact List.map_congr_left (fun b _ => rfl)
  rw [h]
  simp [List.flatten_eq_nil_iff, Event.isEvalTest]

/-- C4: `train_ch5` terminates after exactly the given number of epochs with
no early stopping: the test evaluations in the trace are exactly
`evalTest 0, …, evalTest (E-1)`, each test evaluation of epoch `e` occurs
after all of epoch `e`'s batch events (and after all earlier epochs), and
test accuracy is recorded in the plot exactly once per epoch, at
`x = e + 1`. -/
theorem train_ch5_epoch_count {σ : Type} (fw : Framework σ)
    (Finit : σ → Device → σ) (Ffwd : σ → NDArray (List ℚ) → NDArray (List ℚ))
    (Floss : NDArray (List ℚ) → NDArray Nat → NDArray ℚ)
    (Fback : σ → NDArray ℚ → σ) (Fstep : σ → ℚ → Nat → σ)
    (net0 : Net σ) (ti : Nat → List Batch)
    (te : List (NDArray (List ℚ) × NDArray Nat)) (E : Nat) (lr : ℚ) (ctx : Device)
    (hT : TotalOps fw Finit Ffwd Floss Fback Fstep)
    (hE : 0 < E) (hne : ∀ e, e < E → ti e ≠ [])
    (hsz : ∀ e, e < E → ∀ b ∈ ti e, 0 < b.X.size)
    (htime : totalTime ti E ≠ 0)
    (hp : net0.params ≠ []) (hte : specTotalExamples te ≠ 0) :
    ∃ out, train_ch5 fw net0 ti te E lr ctx = .ok out ∧
      out.events.filter Event.isEvalTest = (List.range E).map Event.evalTest ∧
      (∀ e, e < E → ∃ rest, out.events =
        setupEvents ctx lr
            (net0.params.map (fun _ => ({ list_ctx := [ctx] } : Parameter))) ++
          (((List.range e).map (fun k => epochEvents ctx k (ti k))).flatten ++
            (((ti e).map (batchEvents ctx)).flatten ++ Event.evalTest e :: rest))) ∧
      out.plot.filterMap (fun p => p.test_acc.map (fun _ => p.x)) =
        (List.range E).map (fun e => (e : ℚ) + 1) := by
  refine ⟨train_ch5P Finit Ffwd Floss Fback Fstep net0 ti te E lr ctx,
    train_ch5_ok hT net0 ti te E lr ctx hE (hne (E - 1) (by omega)) hsz htime hp hte,
    ?_, ?_, ?_⟩
  · show (setupEvents ctx lr _ ++ _).filter Event.isEvalTest = _
    rw [runEpochsP_events, List.range_eq_range', List.filter_append,
      List.filter_flatten]
    have h : ((List.range' 0 E).map (fun k => epochEvents ctx k (ti k))).map
        (List.filter Event.isEvalTest) =
        (List.range' 0 E).map (fun k => [Event.evalTest k]) := by
      rw [List.map_map]
      exact List.map_congr_left (fun k _ => filter_isEvalTest_epoch ctx k (ti k))
    rw [h, flatten_map_singleton]
    rfl
  · intro e he
    obtain ⟨k, hk⟩ : ∃ k, E = e + 1 + k := ⟨E - e - 1, by omega⟩
    refine ⟨(((List.range k).map (fun j => e + 1 + j)).map
      (fun j => epochEvents ctx j (ti j))).flatten, ?_⟩
    show setupEvents ctx lr _ ++ _ = _
    rw [runEpochsP_events, List.range_eq_range']
    rw [show (List.range' 0 E) = List.range E from (List.range_eq_range' E).symm]
    rw [hk, List.range_add, List.range_succ]
    simp [epochEvents, List.append_assoc]
    rw [List.range_eq_range']
  · show (train_ch5P Finit Ffwd Floss Fback Fstep net0 ti te E lr ctx).plot.filterMap _ = _
    simp only [train_ch5P]
    rw [runEpochsP_plots, List.range_eq_range']

/-- C4 witness: the concrete one-epoch run evaluates the test set exactly
once and records one test-accuracy plot point, at `x = 1`. -/
theorem train_ch5_epoch_count_witness :
    (train_ch5 cFw cNet cIterOne cTest 1 1 0).map
        (fun out => (out.events.filter Event.isEvalTest,
          out.plot.filterMap (fun p => p.test_acc.map (fun _ => p.x)))) =
      .ok ([Event.evalTest 0], [1]) := by
  obtain ⟨out, hok, hfil, -, hplot⟩ :=
    train_ch5_epoch_count cFw (fun s _ => s) cForward cLoss
      (fun s _ => s) (fun s _ _ => s) cNet cIterOne cTest 1 1 0
      ⟨fun _ _ => rfl, fun _ _ => rfl, fun _ _ => rfl, fun _ _ => rfl,
        fun _ _ _ => rfl⟩
      (by norm_num) (fun e _ => by simp [cIterOne])
      (fun e _ b hb => by
        simp [cIterOne] at hb
        subst hb
        norm_num [mkBatch, NDArray.size])
      (by norm_num [totalTime, epochDur, cIterOne, mkBatch, List.range_succ])
      (by simp [cNet]) (by norm_num [specTotalExamples, cTest, NDArray.size])
  rw [hok]
  simp only [Except.map]
  rw [hfil, hplot]
  simp [List.range_succ]

/-! ## Claim C5 — the per-epoch metric accumulator -/

/-- C5: the metric accumulator of the training loop (the epoch body
`runEpoch`, executed by `train_ch5` once per epoch) is a fresh triple of
running sums per epoch: whatever the incoming loop state `s` holds in its
metric slots, after the epoch the slots equal the sums of this epoch's
per-batch loss contributions, correct-count contributions and example counts
(one contribution per batch — the contribution lists have exactly one entry
per batch), and at epoch end the locals `train_loss` / `train_acc` hold the
scalar rates loss-per-example and accuracy-per-example of this epoch. -/
theorem train_ch5_metric_accumulator {σ : Type} (fw : Framework σ)
    (Finit : σ → Device → σ) (Ffwd : σ → NDArray (List ℚ) → NDArray (List ℚ))
    (Floss : NDArray (List ℚ) → NDArray Nat → NDArray ℚ)
    (Fback : σ → NDArray ℚ → σ) (Fstep : σ → ℚ → Nat → σ)
    (params : List Parameter) (cT : Device)
    (test_iter : List (NDArray (List ℚ) × NDArray Nat)) (lr : ℚ) (ctx : Device)
    (epoch : Nat) (batches : List Batch) (s : TState σ)
    (hT : TotalOps fw Finit Ffwd Floss Fback Fstep)
    (hres : ∀ st : σ, resolveCtx ({ params := params, st := st } : Net σ) none = .ok cT)
    (hte : specTotalExamples test_iter ≠ 0)
    (hsz : ∀ b ∈ batches, 0 < b.X.size) (hne : batches ≠ []) :
    ∃ r, runEpoch fw params test_iter lr ctx epoch batches s = .ok r ∧
      r.1.m0 = (lossContribs Ffwd Floss Fback Fstep lr ctx s.st batches).sum ∧
      r.1.m1 = (accContribs Ffwd Floss Fback Fstep lr ctx s.st batches).sum ∧
      r.1.m2 = (batches.map (fun b => (b.X.size : ℚ))).sum ∧
      (lossContribs Ffwd Floss Fback Fstep lr ctx s.st batches).length =
        batches.length ∧
      (accContribs Ffwd Floss Fback Fstep lr ctx s.st batches).length =
        batches.length ∧
      r.1.train_loss = some (r.1.m0 / r.1.m2) ∧
      r.1.train_acc = some (r.1.m1 / r.1.m2) := by
  obtain ⟨hl, ha⟩ := @runEpochP_locals σ Ffwd Floss Fback Fstep cT test_iter lr ctx epoch batches s hne
  exact ⟨runEpochP Ffwd Floss Fback Fstep cT test_iter lr ctx epoch batches s,
    runEpoch_ok hT params cT hres test_iter hte lr ctx epoch batches s hsz,
    runEpochP_m0 cT test_iter lr ctx epoch batches s,
    runEpochP_m1 cT test_iter lr ctx epoch batches s,
    runEpochP_m2 cT test_iter lr ctx epoch batches s,
    lossContribs_length lr ctx batches s.st,
    accContribs_length lr ctx batches s.st, hl, ha⟩

/-- C5 witness: one concrete epoch over a single one-example batch, started
from a dirty incoming state (nonzero metric slots), ends with metric
`(1, 1, 1)` and rates `1`. -/
theorem train_ch5_metric_accumulator_witness :
    (runEpoch cFw [{ list_ctx := [0] }] cTest 1 0 0 [mkBatch 1]
        { cState0 with m0 := 5, m1 := 7, m2 := 9 }).map
      (fun r => (r.1.m0, r.1.m1, r.1.m2, r.1.train_loss, r.1.train_acc)) =
      .ok (1, 1, 1, some 1, some 1) := by
  obtain ⟨r, hok, h0, h1, h2, -, -, hl, ha⟩ :=
    train_ch5_metric_accumulator cFw (fun s _ => s) cForward cLoss
      (fun s _ => s) (fun s _ _ => s) [{ list_ctx := [0] }] 0 cTest 1 0 0
      [mkBatch 1] { cState0 with m0 := 5, m1 := 7, m2 := 9 }
      ⟨fun _ _ => rfl, fun _ _ => rfl, fun _ _ => rfl, fun _ _ => rfl,
        fun _ _ _ => rfl⟩
      (fun st => by simp [resolveCtx])
      (by norm_num [specTotalExamples, cTest, NDArray.size])
      (fun b hb => by
        simp at hb
        subst hb
        norm_num [mkBatch, NDArray.size])
      (by simp)
  have h0' : r.1.m0 = 1 := by
    rw [h0]
    norm_num [lossContribs, cLoss, cForward, mkBatch, NDArray.as_in_context,
      NDArray.size]
  have h1' : r.1.m1 = 1 := by
    rw [h1]
    norm_num [accContribs, cLoss, cForward, accuracy, argmaxAux, mkBatch,
      NDArray.as_in_context]
  have h2' : r.1.m2 = 1 := by
    rw [h2]
    norm_num [mkBatch, NDArray.size]
  rw [hok]
  simp only [Except.map]
  rw [hl, ha, h0', h1', h2']
  norm_num

/-! ## Claim C10 — semantics of the final summary -/

/-- C10 (amended): the loss and training accuracy of the final summary are
averages over the last epoch's examples only (the accumulator is re-created
each epoch; `stPre` is the parameter state at the start of the last epoch),
and the printed throughput equals the last epoch's example count times the
epoch count divided by the total measured time; this equals the true overall
examples-per-second exactly when the last epoch's example count times the
epoch count equals the total example count over all epochs (equivalently,
when the last epoch's count equals the per-epoch mean) — equal per-epoch
counts are a special case but are NOT necessary. -/
theorem train_ch5_final_summary_semantics {σ : Type} (fw : Framework σ)
    (Finit : σ → Device → σ) (Ffwd : σ → NDArray (List ℚ) → NDArray (List ℚ))
    (Floss : NDArray (List ℚ) → NDArray Nat → NDArray ℚ)
    (Fback : σ → NDArray ℚ → σ) (Fstep : σ → ℚ → Nat → σ)
    (net0 : Net σ) (ti : Nat → List Batch)
    (te : List (NDArray (List ℚ) × NDArray Nat)) (E : Nat) (lr : ℚ) (ctx : Device)
    (hT : TotalOps fw Finit Ffwd Floss Fback Fstep)
    (hE : 0 < E) (hne : ∀ e, e < E → ti e ≠ [])
    (hsz : ∀ e, e < E → ∀ b ∈ ti e, 0 < b.X.size)
    (htime : totalTime ti E ≠ 0)
    (hp : net0.params ≠ []) (hte : specTotalExamples te ≠ 0) :
    ∃ (out : TrainOut σ) (stPre : σ) (T : ℚ),
      train_ch5 fw net0 ti te E lr ctx = .ok out ∧
      out.timerSum = totalTime ti E ∧
      out.m2 = epochExamples ti (E - 1) ∧
      out.printed =
        [.summary
          ((lossContribs Ffwd Floss Fback Fstep lr ctx stPre (ti (E - 1))).sum /
            epochExamples ti (E - 1))
          ((accContribs Ffwd Floss Fback Fstep lr ctx stPre (ti (E - 1))).sum /
            epochExamples ti (E - 1)) T,
         .throughput (epochExamples ti (E - 1) * (E : ℚ) / totalTime ti E) ctx] ∧
      (epochExamples ti (E - 1) * (E : ℚ) / totalTime ti E =
          totalExamplesAll ti E / totalTime ti E ↔
        epochExamples ti (E - 1) * (E : ℚ) = totalExamplesAll ti E) := by
  have hiff : epochExamples ti (E - 1) * (E : ℚ) / totalTime ti E =
      totalExamplesAll ti E / totalTime ti E ↔
      epochExamples ti (E - 1) * (E : ℚ) = totalExamplesAll ti E := by
    rw [div_eq_div_iff htime htime, mul_left_inj' htime]
  obtain ⟨stPre, h2, h0, h1⟩ := @runEpochsP_metric_last σ Ffwd Floss Fback Fstep ctx te lr ctx ti E 0
    { st := Finit net0.st ctx, m0 := 0, m1 := 0, m2 := 0,
      train_loss := none, train_acc := none, timerSum := 0 } none hE
  obtain ⟨hl, ha⟩ := @runEpochsP_locals_last σ Ffwd Floss Fback Fstep ctx te lr ctx ti E 0
    { st := Finit net0.st ctx, m0 := 0, m1 := 0, m2 := 0,
      train_loss := none, train_acc := none, timerSum := 0 } none hE
    (by simpa using hne (E - 1) (by omega))
  have htac := @runEpochsP_tacc_isSome σ Ffwd Floss Fback Fstep ctx te lr ctx ti E 0
    { st := Finit net0.st ctx, m0 := 0, m1 := 0, m2 := 0,
      train_loss := none, train_acc := none, timerSum := 0 } none
    (Or.inr (by omega))
  obtain ⟨tc, htc⟩ := Option.isSome_iff_exists.mp htac
  have htimer := @runEpochsP_timer σ Ffwd Floss Fback Fstep ctx te lr ctx ti E 0
    { st := Finit net0.st ctx, m0 := 0, m1 := 0, m2 := 0,
      train_loss := none, train_acc := none, timerSum := 0 } none
  have htimer' : (runEpochsP Ffwd Floss Fback Fstep ctx te lr ctx ti 0 E
      { st := Finit net0.st ctx, m0 := 0, m1 := 0, m2 := 0,
        train_loss := none, train_acc := none, timerSum := 0 } none).1.timerSum =
      totalTime ti E := by
    rw [htimer, totalTime, List.range_eq_range']
    simp
  rw [show (0 : Nat) + E - 1 = E - 1 from by omega] at h2 h0 h1
  refine ⟨train_ch5P Finit Ffwd Floss Fback Fstep net0 ti te E lr ctx, stPre, tc,
    train_ch5_ok hT net0 ti te E lr ctx hE (hne (E - 1) (by omega)) hsz htime hp hte,
    ?_, ?_, ?_, hiff⟩
  · show (runEpochsP Ffwd Floss Fback Fstep ctx te lr ctx ti 0 E _ none).1.timerSum = _
    exact htimer'
  · show (runEpochsP Ffwd Floss Fback Fstep ctx te lr ctx ti 0 E _ none).1.m2 = _
    exact h2
  · show [Line.summary _ _ _, Line.throughput _ ctx] = _
    rw [hl, ha, htc]
    simp only [Option.getD_some]
    rw [h0, h1, h2, htimer']

/-- C10 (counterexample): with per-epoch example counts 1, 3, 2 (not all
equal) and unit batch times, the printed throughput `2 * 3 / 3 = 2` equals
the true overall rate `6 / 3 = 2` — refuting "equals the true overall
examples-per-second ONLY when every epoch processes the same number of
examples". -/
theorem throughput_true_rate_without_equal_epochs :
    (train_ch5 cFw cNet cIter132 cTest 3 1 0).map (fun out => out.printed) =
      .ok [.summary 1 1 1, .throughput 2 0] ∧
    totalExamplesAll cIter132 3 / totalTime cIter132 3 = 2 ∧
    ¬ epochExamples cIter132 0 = epochExamples cIter132 1 := by
  refine ⟨?_, ?_, ?_⟩
  · norm_num [train_ch5, cFw, runEpochs, runEpoch, runBatches, stepBatch,
      evaluate_accuracy_gpu, resolveCtx, evalFold, pydiv, accuracy, argmaxAux,
      cForward, cLoss, cNet, cIter132, cTest, mkBatch,
      NDArray.as_in_context, NDArray.size, Except.map, List.replicate]
  · norm_num [totalExamplesAll, totalTime, epochExamples, epochDur, cIter132,
      mkBatch, NDArray.size, List.range_succ]
  · norm_num [epochExamples, cIter132, mkBatch, NDArray.size, List.replicate]

/-- C10 witness: on the concrete one-epoch, one-example run the final
accumulator count is 1 and the timer total is 1. -/
theorem train_ch5_final_summary_semantics_witness :
    (train_ch5 cFw cNet cIterOne cTest 1 1 0).map
        (fun out => (out.m2, out.timerSum)) = .ok (1, 1) := by
  obtain ⟨out, stPre, T, hok, htm, hm2, -, -⟩ :=
    train_ch5_final_summary_semantics cFw (fun s _ => s) cForward cLoss
      (fun s _ => s) (fun s _ _ => s) cNet cIterOne cTest 1 1 0
      ⟨fun _ _ => rfl, fun _ _ => rfl, fun _ _ => rfl, fun _ _ => rfl,
        fun _ _ _ => rfl⟩
      (by norm_num) (fun e _ => by simp [cIterOne])
      (fun e _ b hb => by
        simp [cIterOne] at hb
        subst hb
        norm_num [mkBatch, NDArray.size])
      (by norm_num [totalTime, epochDur, cIterOne, mkBatch, List.range_succ])
      (by simp [cNet]) (by norm_num [specTotalExamples, cTest, NDArray.size])
  rw [hok]
  simp only [Except.map]
  rw [hm2, htm]
  norm_num [epochExamples, totalTime, epochDur, cIterOne, mkBatch,
    NDArray.size, List.range_succ, List.replicate]

/-! ## Claim C9 — an all-empty training iterator -/

/-- C9 (amended): `train_ch5`'s final summary requires the training iterator
to have yielded at least one batch in SOME epoch: if the iterator yields no
batch in any epoch, the locals `train_loss` / `train_acc` are never assigned,
the timer total is zero, and the final print raises `NameError` (the
counterexample shows a nonempty earlier epoch suffices even when the final
epoch is empty). -/
theorem train_ch5_needs_some_batch {σ : Type} (fw : Framework σ)
    (Finit : σ → Device → σ) (Ffwd : σ → NDArray (List ℚ) → NDArray (List ℚ))
    (Floss : NDArray (List ℚ) → NDArray Nat → NDArray ℚ)
    (Fback : σ → NDArray ℚ → σ) (Fstep : σ → ℚ → Nat → σ)
    (net0 : Net σ) (ti : Nat → List Batch)
    (te : List (NDArray (List ℚ) × NDArray Nat)) (E : Nat) (lr : ℚ) (ctx : Device)
    (hT : TotalOps fw Finit Ffwd Floss Fback Fstep)
    (hE : 0 < E) (hall : ∀ e, e < E → ti e = [])
    (hp : net0.params ≠ []) (hte : specTotalExamples te ≠ 0) :
    train_ch5 fw net0 ti te E lr ctx = .error "NameError" ∧
    (runEpochsP Ffwd Floss Fback Fstep ctx te lr ctx ti 0 E
        { st := Finit net0.st ctx, m0 := 0, m1 := 0, m2 := 0,
          train_loss := none, train_acc := none, timerSum := 0 }
        none).1.train_loss = none ∧
    (runEpochsP Ffwd Floss Fback Fstep ctx te lr ctx ti 0 E
        { st := Finit net0.st ctx, m0 := 0, m1 := 0, m2 := 0,
          train_loss := none, train_acc := none, timerSum := 0 }
        none).1.train_acc = none ∧
    (runEpochsP Ffwd Floss Fback Fstep ctx te lr ctx ti 0 E
        { st := Finit net0.st ctx, m0 := 0, m1 := 0, m2 := 0,
          train_loss := none, train_acc := none, timerSum := 0 }
        none).1.timerSum = 0 := by
  obtain ⟨p0, ps0, hps⟩ : ∃ p0 ps0, net0.params = p0 :: ps0 := by
    cases h : net0.params with
    | nil => exact absurd h hp
    | cons a l => exact ⟨a, l, rfl⟩
  have hres : ∀ st : σ, resolveCtx
      ({ params := net0.params.map (fun _ => ({ list_ctx := [ctx] } : Parameter)),
         st := st } : Net σ) none = .ok ctx := by
    intro st
    simp [resolveCtx, hps]
  have hsz' : ∀ k, k < E → ∀ b ∈ ti (0 + k), 0 < b.X.size := by
    intro k hk b hb
    rw [show (0 : Nat) + k = k from by omega, hall k hk] at hb
    exact absurd hb (List.not_mem_nil b)
  have hre := runEpochs_ok hT _ ctx hres te hte lr ctx ti E 0
    { st := Finit net0.st ctx, m0 := 0, m1 := 0, m2 := 0,
      train_loss := none, train_acc := none, timerSum := 0 } none hsz'
  obtain ⟨hl, ha, ht⟩ := @runEpochsP_locals_empty σ Ffwd Floss Fback Fstep ctx te lr ctx ti E 0
    { st := Finit net0.st ctx, m0 := 0, m1 := 0, m2 := 0,
      train_loss := none, train_acc := none, timerSum := 0 } none
    (fun k hk => by rw [show (0 : Nat) + k = k from by omega]; exact hall k hk)
  refine ⟨?_, hl, ha, ht⟩
  simp only [train_ch5, hT.init_eq, hre, hl]

/-- C9 witness: with a training iterator that never yields a batch, the
concrete run raises `NameError` at the final print. -/
theorem train_ch5_needs_some_batch_witness :
    train_ch5 cFw cNet cIterEmpty cTest 1 1 0 = .error "NameError" :=
  (train_ch5_needs_some_batch cFw (fun s _ => s) cForward cLoss
    (fun s _ => s) (fun s _ _ => s) cNet cIterEmpty cTest 1 1 0
    ⟨fun _ _ => rfl, fun _ _ => rfl, fun _ _ => rfl, fun _ _ => rfl,
      fun _ _ _ => rfl⟩
    (by norm_num) (fun e _ => rfl) (by simp [cNet])
    (by norm_num [specTotalExamples, cTest, NDArray.size])).1

/-- C9 (counterexample): the claim requires "at least one batch in the FINAL
epoch", but with a one-shot iterator that yields one batch in epoch 0 and
nothing in the final epoch 1, the final print succeeds: the locals persist
from the earlier epoch and the throughput computes `0 * 2 / 1 = 0`. -/
theorem final_epoch_empty_still_prints :
    cIterOneShot 1 = [] ∧
    (train_ch5 cFw cNet cIterOneShot cTest 2 1 0).map (fun out => out.printed) =
      .ok [.summary 1 1 1, .throughput 0 0] := by
  refine ⟨rfl, ?_⟩
  norm_num [train_ch5, cFw, runEpochs, runEpoch, runBatches, stepBatch,
    evaluate_accuracy_gpu, resolveCtx, evalFold, pydiv, accuracy, argmaxAux,
    cForward, cLoss, cNet, cIterOneShot, cTest, mkBatch,
    NDArray.as_in_context, NDArray.size, Except.map, List.replicate]

/-! ## Claim C6 — the externally visible output surface -/

/-- C6 (amended): the output surface is printed text and the inline plot: the
dummy forward pass on a `(1, 1, 28, 28)` input prints exactly one
output-shape string per layer of the network, and `train_ch5` ends by
printing TWO final lines — a summary line with loss, training accuracy and
test accuracy, followed by a separate throughput line; no single printed line
carries both the loss and the throughput. -/
theorem train_ch5_output_surface {σ : Type} (fw : Framework σ)
    (Finit : σ → Device → σ) (Ffwd : σ → NDArray (List ℚ) → NDArray (List ℚ))
    (Floss : NDArray (List ℚ) → NDArray Nat → NDArray ℚ)
    (Fback : σ → NDArray ℚ → σ) (Fstep : σ → ℚ → Nat → σ)
    (net0 : Net σ) (ti : Nat → List Batch)
    (te : List (NDArray (List ℚ) × NDArray Nat)) (E : Nat) (lr : ℚ) (ctx : Device)
    (hT : TotalOps fw Finit Ffwd Floss Fback Fstep)
    (hE : 0 < E) (hne : ∀ e, e < E → ti e ≠ [])
    (hsz : ∀ e, e < E → ∀ b ∈ ti e, 0 < b.X.size)
    (htime : totalTime ti E ≠ 0)
    (hp : net0.params ≠ []) (hte : specTotalExamples te ≠ 0) :
    (shapeInspection net (.dim4 1 1 28 28)).map List.length = some net.length ∧
    ∃ (out : TrainOut σ), train_ch5 fw net0 ti te E lr ctx = .ok out ∧
      ∃ (L A T R : ℚ), out.printed = [.summary L A T, .throughput R ctx] ∧
        out.printed.length = 2 ∧
        out.printed.filter (fun l => l.hasLoss && l.hasThroughput) = [] := by
  refine ⟨by decide,
    train_ch5P Finit Ffwd Floss Fback Fstep net0 ti te E lr ctx,
    train_ch5_ok hT net0 ti te E lr ctx hE (hne (E - 1) (by omega)) hsz htime hp hte,
    _, _, _, _, rfl, rfl, rfl⟩

/-- C6 witness: the concrete run's dummy-shape list has one entry per layer
and the training run prints exactly two lines. -/
theorem train_ch5_output_surface_witness :
    (shapeInspection net (.dim4 1 1 28 28)).map List.length = some 7 ∧
    (train_ch5 cFw cNet cIterOne cTest 1 1 0).map (fun out => out.printed.length) =
      .ok 2 := by
  obtain ⟨hshape, out, hok, L, A, T, R, hpr, hlen, -⟩ :=
    train_ch5_output_surface cFw (fun s _ => s) cForward cLoss
      (fun s _ => s) (fun s _ _ => s) cNet cIterOne cTest 1 1 0
      ⟨fun _ _ => rfl, fun _ _ => rfl, fun _ _ => rfl, fun _ _ => rfl,
        fun _ _ _ => rfl⟩
      (by norm_num) (fun e _ => by simp [cIterOne])
      (fun e _ b hb => by
        simp [cIterOne] at hb
        subst hb
        norm_num [mkBatch, NDArray.size])
      (by norm_num [totalTime, epochDur, cIterOne, mkBatch, List.range_succ])
      (by simp [cNet]) (by norm_num [specTotalExamples, cTest, NDArray.size])
  refine ⟨by simpa using hshape, ?_⟩
  rw [hok]
  simp only [Except.map]
  rw [hlen]

/-- C6 (counterexample): the claim says `train_ch5` ends by printing "a final
summary line with loss, training accuracy, test accuracy, and throughput";
on the concrete run the final output is two lines and no printed line
carries both the loss and the throughput. -/
theorem final_summary_not_single_line :
    (train_ch5 cFw cNet cIterOne cTest 1 1 0).map
        (fun out => (out.printed.length,
          out.printed.filter (fun l => l.hasLoss && l.hasThroughput))) =
      .ok (2, []) := by
  norm_num [train_ch5, cFw, runEpochs, runEpoch, runBatches, stepBatch,
    evaluate_accuracy_gpu, resolveCtx, evalFold, pydiv, accuracy, argmaxAux,
    cForward, cLoss, cNet, cIterOne, cTest, mkBatch, Line.hasLoss,
    Line.hasThroughput, NDArray.as_in_context, NDArray.size, Except.map,
    List.replicate]

/-! ## Claim C7 — error propagation -/

section ErrorProp

variable {σ : Type}

theorem evalFold_first_error (fw : Framework σ) (st : σ) (c : Device) (er : String) :
    ∀ (pre : List (NDArray (List ℚ) × NDArray Nat)) (m m' : ℚ × ℚ)
      (X : NDArray (List ℚ)) (y : NDArray Nat)
      (post : List (NDArray (List ℚ) × NDArray Nat)),
      evalFold fw st c m pre = .ok m' →
      fw.forward st (X.as_in_context c) = .error er →
      evalFold fw st c m (pre ++ (X, y) :: post) = .error er := by
  intro pre
  induction pre with
  | nil =>
      intro m m' X y post _ hf
      simp [evalFold, hf]
  | cons hd tl ih =>
      intro m m' X y post hok hf
      obtain ⟨X0, y0⟩ := hd
      cases hf0 : fw.forward st (X0.as_in_context c) with
      | error e0 => simp [evalFold, hf0] at hok
      | ok yh =>
          simp only [evalFold, hf0] at hok
          rw [List.cons_append]
          simp only [evalFold, hf0]
          exact ih _ m' X y post hok hf

theorem runBatches_append_error (fw : Framework σ) (lr : ℚ) (ctx : Device)
    (epoch nB : Nat) (er : String) :
    ∀ (pre : List Batch) (i : Nat) (s : TState σ)
      (r : TState σ × List Event × List PlotPoint) (b : Batch) (post : List Batch),
      runBatches fw lr ctx epoch nB i s pre = .ok r →
      stepBatch fw lr ctx epoch nB (i + pre.length) b r.1 = .error er →
      runBatches fw lr ctx epoch nB i s (pre ++ b :: post) = .error er := by
  intro pre
  induction pre with
  | nil =>
      intro i s r b post hok hsb
      simp only [runBatches, Except.ok.injEq] at hok
      subst hok
      dsimp only at hsb
      simp only [List.length_nil, Nat.add_zero] at hsb
      simp [runBatches, hsb]
  | cons b0 pre ih =>
      intro i s r b post hok hsb
      cases hs0 : stepBatch fw lr ctx epoch nB i b0 s with
      | error e0 => simp [runBatches, hs0] at hok
      | ok r1 =>
          simp only [runBatches, hs0] at hok
          cases hrec : runBatches fw lr ctx epoch nB (i + 1) r1.1 pre with
          | error e0 => rw [hrec] at hok; simp at hok
          | ok r2 =>
              rw [hrec] at hok
              simp only [Except.ok.injEq] at hok
              subst hok
              dsimp only at hsb
              have hsb' : stepBatch fw lr ctx epoch nB (i + 1 + pre.length) b r2.1 =
                  .error er := by
                rw [show i + 1 + pre.length = i + (b0 :: pre).length from by
                  simp [List.length_cons]; omega]
                exact hsb
              rw [List.cons_append]
              simp only [runBatches, hs0]
              rw [ih (i + 1) r1.1 r2 b post hrec hsb']

theorem runEpochs_prefix_error (fw : Framework σ) (params : List Parameter)
    (test_iter : List (NDArray (List ℚ) × NDArray Nat)) (lr : ℚ) (ctx : Device)
    (ti : Nat → List Batch) (er : String) :
    ∀ (m e : Nat) (s : TState σ) (t : Option ℚ)
      (r : TState σ × Option ℚ × List Event × List PlotPoint) (k : Nat),
      runEpochs fw params test_iter lr ctx ti e m s t = .ok r →
      runEpoch fw params test_iter lr ctx (e + m) (ti (e + m)) r.1 = .error er →
      runEpochs fw params test_iter lr ctx ti e (m + 1 + k) s t = .error er := by
  intro m
  induction m with
  | zero =>
      intro e s t r k hok herr
      simp only [runEpochs, Except.ok.injEq] at hok
      subst hok
      dsimp only at herr
      rw [show e + 0 = e from rfl] at herr
      rw [show 0 + 1 + k = k + 1 from by omega]
      simp [runEpochs, herr]
  | succ m ih =>
      intro e s t r k hok herr
      cases h1 : runEpoch fw params test_iter lr ctx e (ti e) s with
      | error e0 => simp [runEpochs, h1] at hok
      | ok r1 =>
          simp only [runEpochs, h1] at hok
          cases h2 : runEpochs fw params test_iter lr ctx ti (e + 1) m r1.1 r1.2.1 with
          | error e0 => rw [h2] at hok; simp at hok
          | ok r2 =>
              rw [h2] at hok
              simp only [Except.ok.injEq] at hok
              subst hok
              dsimp only at herr
              have herr' : runEpoch fw params test_iter lr ctx (e + 1 + m)
                  (ti (e + 1 + m)) r2.1 = .error er := by
                rw [show e + 1 + m = e + (m + 1) from by omega]
                exact herr
              have hrec := ih (e + 1) r1.1 r1.2.1 r2 k h2 herr'
              rw [show m + 1 + 1 + k = (m + 1 + k) + 1 from by omega]
              simp [runEpochs, h1, hrec]

end ErrorProp

/-- C7: neither `evaluate_accuracy_gpu` nor `train_ch5` catches, recovers
from, or translates any error — whatever error the first failing framework
call raises is returned unchanged: (1) a failing parameter initialization;
(2) the first failing forward pass inside `evaluate_accuracy_gpu`; (3)–(6) a
failing forward, loss, backward or optimizer step inside a batch; (7) the
first failing batch operation of any epoch of `train_ch5`; (8) a failing
test evaluation at the end of any epoch of `train_ch5`. -/
theorem errors_propagate_unchanged :
    (∀ (σ : Type) (fw : Framework σ) (net0 : Net σ) (ti : Nat → List Batch)
       (te : List (NDArray (List ℚ) × NDArray Nat)) (E : Nat) (lr : ℚ)
       (ctx : Device) (er : String),
       fw.initNet net0.st ctx = .error er →
       train_ch5 fw net0 ti te E lr ctx = .error er) ∧
    (∀ (σ : Type) (fw : Framework σ) (net' : Net σ) (c : Device) (er : String)
       (pre : List (NDArray (List ℚ) × NDArray Nat)) (X : NDArray (List ℚ))
       (y : NDArray Nat) (post : List (NDArray (List ℚ) × NDArray Nat))
       (m' : ℚ × ℚ),
       evalFold fw net'.st c (0, 0) pre = .ok m' →
       fw.forward net'.st (X.as_in_context c) = .error er →
       evaluate_accuracy_gpu fw net' (pre ++ (X, y) :: post) (some c) = .error er) ∧
    (∀ (σ : Type) (fw : Framework σ) (lr : ℚ) (ctx : Device) (ep nB i : Nat)
       (b : Batch) (s : TState σ) (er : String),
       fw.forward s.st (b.X.as_in_context ctx) = .error er →
       stepBatch fw lr ctx ep nB i b s = .error er) ∧
    (∀ (σ : Type) (fw : Framework σ) (lr : ℚ) (ctx : Device) (ep nB i : Nat)
       (b : Batch) (s : TState σ) (yh : NDArray (List ℚ)) (er : String),
       fw.forward s.st (b.X.as_in_context ctx) = .ok yh →
       fw.lossFn yh (b.y.as_in_context ctx) = .error er →
       stepBatch fw lr ctx ep nB i b s = .error er) ∧
    (∀ (σ : Type) (fw : Framework σ) (lr : ℚ) (ctx : Device) (ep nB i : Nat)
       (b : Batch) (s : TState σ) (yh : NDArray (List ℚ)) (l : NDArray ℚ)
       (er : String),
       fw.forward s.st (b.X.as_in_context ctx) = .ok yh →
       fw.lossFn yh (b.y.as_in_context ctx) = .ok l →
       fw.backward s.st l = .error er →
       stepBatch fw lr ctx ep nB i b s = .error er) ∧
    (∀ (σ : Type) (fw : Framework σ) (lr : ℚ) (ctx : Device) (ep nB i : Nat)
       (b : Batch) (s : TState σ) (yh : NDArray (List ℚ)) (l : NDArray ℚ)
       (st1 : σ) (er : String),
       fw.forward s.st (b.X.as_in_context ctx) = .ok yh →
       fw.lossFn yh (b.y.as_in_context ctx) = .ok l →
       fw.backward s.st l = .ok st1 →
       fw.step st1 lr b.X.size = .error er →
       stepBatch fw lr ctx ep nB i b s = .error er) ∧
    (∀ (σ : Type) (fw : Framework σ) (net0 : Net σ) (ti : Nat → List Batch)
       (te : List (NDArray (List ℚ) × NDArray Nat)) (E : Nat) (lr : ℚ)
       (ctx : Device) (er : String) (st0 : σ) (m k : Nat)
       (r : TState σ × Option ℚ × List Event × List PlotPoint)
       (rb : TState σ × List Event × List PlotPoint) (pre : List Batch)
       (b : Batch) (post : List Batch),
       fw.initNet net0.st ctx = .ok st0 →
       runEpochs fw (net0.params.map (fun _ => ({ list_ctx := [ctx] } : Parameter)))
         te lr ctx ti 0 m
         { st := st0, m0 := 0, m1 := 0, m2 := 0, train_loss := none,
           train_acc := none, timerSum := 0 } none = .ok r →
       ti m = pre ++ b :: post →
       runBatches fw lr ctx m (ti m).length 0
         { r.1 with m0 := 0, m1 := 0, m2 := 0 } pre = .ok rb →
       stepBatch fw lr ctx m (ti m).length pre.length b rb.1 = .error er →
       E = m + 1 + k →
       train_ch5 fw net0 ti te E lr ctx = .error er) ∧
    (∀ (σ : Type) (fw : Framework σ) (net0 : Net σ) (ti : Nat → List Batch)
       (te : List (NDArray (List ℚ) × NDArray Nat)) (E : Nat) (lr : ℚ)
       (ctx : Device) (er : String) (st0 : σ) (m k : Nat)
       (r : TState σ × Option ℚ × List Event × List PlotPoint)
       (rb : TState σ × List Event × List PlotPoint),
       fw.initNet net0.st ctx = .ok st0 →
       runEpochs fw (net0.params.map (fun _ => ({ list_ctx := [ctx] } : Parameter)))
         te lr ctx ti 0 m
         { st := st0, m0 := 0, m1 := 0, m2 := 0, train_loss := none,
           train_acc := none, timerSum := 0 } none = .ok r →
       runBatches fw lr ctx m (ti m).length 0
         { r.1 with m0 := 0, m1 := 0, m2 := 0 } (ti m) = .ok rb →
       evaluate_accuracy_gpu fw
         { params := net0.params.map (fun _ => ({ list_ctx := [ctx] } : Parameter)),
           st := rb.1.st } te none = .error er →
       E = m + 1 + k →
       train_ch5 fw net0 ti te E lr ctx = .error er) := by
  refine ⟨?_, ?_, ?_, ?_, ?_, ?_, ?_, ?_⟩
  · intro σ fw net0 ti te E lr ctx er h
    simp [train_ch5, h]
  · intro σ fw net' c er pre X y post m' hok hf
    have h := evalFold_first_error fw net'.st c er pre (0, 0) m' X y post hok hf
    rw [Prod.mk_zero_zero] at h
    simp [evaluate_accuracy_gpu, resolveCtx, h]
  · intro σ fw lr ctx ep nB i b s er hf
    simp [stepBatch, hf]
  · intro σ fw lr ctx ep nB i b s yh er hf hl
    simp [stepBatch, hf, hl]
  · intro σ fw lr ctx ep nB i b s yh l er hf hl hb
    simp [stepBatch, hf, hl, hb]
  · intro σ fw lr ctx ep nB i b s yh l st1 er hf hl hb hs
    simp [stepBatch, hf, hl, hb, hs]
  · intro σ fw net0 ti te E lr ctx er st0 m k r rb pre b post hi hm hti hrb hsb hEk
    have hbat : runBatches fw lr ctx m (ti m).length 0
        { r.1 with m0 := 0, m1 := 0, m2 := 0 } (ti m) = .error er := by
      rw [hti] at hrb hsb ⊢
      exact runBatches_append_error fw lr ctx m (pre ++ b :: post).length er pre 0
        _ rb b post hrb (by simpa using hsb)
    have hep : runEpoch fw
        (net0.params.map (fun _ => ({ list_ctx := [ctx] } : Parameter)))
        te lr ctx m (ti m) r.1 = .error er := by
      simp only [runEpoch, hbat]
    have herr := runEpochs_prefix_error fw
      (net0.params.map (fun _ => ({ list_ctx := [ctx] } : Parameter)))
      te lr ctx ti er m 0
      { st := st0, m0 := 0, m1 := 0, m2 := 0, train_loss := none,
        train_acc := none, timerSum := 0 } none r k hm
      (by rw [show (0 : Nat) + m = m from by omega]; exact hep)
    subst hEk
    simp only [train_ch5, hi, herr]
  · intro σ fw net0 ti te E lr ctx er st0 m k r rb hi hm hrb hev hEk
    have hep : runEpoch fw
        (net0.params.map (fun _ => ({ list_ctx := [ctx] } : Parameter)))
        te lr ctx m (ti m) r.1 = .error er := by
      simp only [runEpoch, hrb, hev]
    have herr := runEpochs_prefix_error fw
      (net0.params.map (fun _ => ({ list_ctx := [ctx] } : Parameter)))
      te lr ctx ti er m 0
      { st := st0, m0 := 0, m1 := 0, m2 := 0, train_loss := none,
        train_acc := none, timerSum := 0 } none r k hm
      (by rw [show (0 : Nat) + m = m from by omega]; exact hep)
    subst hEk
    simp only [train_ch5, hi, herr]

/-- C7 witness: a framework whose initialization fails with `MXNetError`
makes the concrete `train_ch5` call return exactly that error. -/
theorem errors_propagate_unchanged_witness :
    train_ch5 cFwBadInit cNet cIterOne cTest 1 1 0 = .error "MXNetError" :=
  errors_propagate_unchanged.1 Unit cFwBadInit cNet cIterOne cTest 1 1 0
    "MXNetError" rfl

end LeNet
